import Mathlib

/-!
# Verification of the Remi card-game engine (ssveto/remi-v2)

Shallow embedding of the TypeScript sources:
* `src/lib/card.ts`, `src/lib/common.ts`, `src/lib/deck.ts` — card model and deck;
* `src/lib/remi.ts` — the `Remi` engine (meld validators, scorer, commands);
* `src/lib/ai-player.ts` — the `AIPlayer` hand solver and planner.

Modelling conventions:
* A JS `Card` object is a record of its `suit`, `value`, `faceUp` flag and its
  unique `id` (the TS id is a random string, modelled as a `Nat`).  JS reference
  equality on card objects (e.g. `hand.includes(card)`, `hand.indexOf(card)`) is
  modelled as equality of `id`s, which coincides with reference equality in every
  state the engine produces because each dealt card carries a distinct id.
* `card.flip()` mutates the `faceUp` flag in place; here `flip` returns the
  updated record.
* JS numbers are modelled as `Nat` where the source only ever holds
  non-negative values, and as `Int` where differences are taken
  (`validatePositionalRun`, `buildSequenceWithJokers`).
* The `Remi` class fields `#currentScore`/`#currentMelds` are write-only UI
  scratch (read back only by the `currentScore`/`getCurrentMelds` getters, never
  by any rule logic), so they are omitted from the state record.
* `Deck.shuffle` / `newGame`'s `new Deck(2)` use `Math.random`; `newGame` is
  therefore parameterised by the post-shuffle card order.
* Recursions that the source runs with unbounded loops
  (`#splitIntoMeldGroups`, `findBestCombinationAdvanced`, `getCombinations`)
  are given an explicit fuel argument so that they are structurally recursive
  and kernel-computable; the fuel passed at every call site is large enough
  that the 0-fuel fallback is unreachable for the inputs considered.
-/

/-- `CARD_SUIT` from `common.ts`. -/
inductive Suit where
  | HEART | DIAMOND | SPADE | CLUB | JOKER_RED | JOKER_BLACK
deriving DecidableEq, Repr

/-- `Card` from `card.ts`: suit, value (1–14), face-up flag, unique identity. -/
structure Card where
  suit : Suit
  value : Int
  faceUp : Bool
  id : Nat
deriving DecidableEq, Repr

/-- `Card.flip()`: toggles the face-up flag, identity unchanged. -/
def Card.flip (c : Card) : Card := { c with faceUp := !c.faceUp }

instance : Inhabited Card := ⟨⟨Suit.HEART, 1, false, 0⟩⟩

/-- Stable insertion sort with a JS-style numeric comparator (negative result
puts `a` before `b`); equal keys keep their original order.  This models
`Array.prototype.sort`, which ECMAScript guarantees to be stable and which
consults only the comparator's sign, so the number-valued TS comparators are
modelled by integer-valued ones of identical sign. -/
def jsSort (cmp : α → α → Int) (l : List α) : List α :=
  l.foldl (fun acc x => insertCmp cmp x acc) []
where
  insertCmp (cmp : α → α → Int) (x : α) : List α → List α
  | [] => [x]
  | y :: ys => if cmp x y < 0 then x :: y :: ys else y :: insertCmp cmp x ys

namespace Remi

/-- `Remi.#isJoker`: a card is a joker iff its suit is one of the joker suits. -/
def isJoker (c : Card) : Bool :=
  c.suit = Suit.JOKER_RED || c.suit = Suit.JOKER_BLACK

/-- Value branch of `Remi.#cardPointValue` (the branches after the joker
check), taking the raw numeric value: 1 ↦ 10, 2–10 ↦ face value,
11–13 ↦ 10, 14 ↦ 10, anything else ↦ 0. -/
def pointValueOfValue (v : Int) : Nat :=
  if v = 1 then 10
  else if 2 ≤ v ∧ v ≤ 10 then v.toNat
  else if 11 ≤ v ∧ v ≤ 13 then 10
  else if v = 14 then 10
  else 0

/-- `Remi.#cardPointValue`: jokers score 0 in hand; otherwise by value. -/
def cardPointValue (c : Card) : Nat :=
  if isJoker c then 0 else pointValueOfValue c.value

/-- `Remi.#isValidSet`: 3–4 cards, at most one joker, at least one regular
card, all regular cards of equal value, all regular suits distinct (the TS
code compares the size of a `Set` of suits with the count of regular cards). -/
def isValidSet (cards : List Card) : Bool :=
  if cards.length < 3 || cards.length > 4 then false
  else
    let jokers := cards.filter (fun c => isJoker c)
    let regularCards := cards.filter (fun c => !isJoker c)
    if jokers.length > 1 then false
    else if regularCards.length = 0 then false
    else
      let targetValue := (regularCards.headD default).value
      if !(regularCards.all (fun c => c.value = targetValue)) then false
      else if !((regularCards.map (·.suit)).dedup.length = regularCards.length) then false
      else true

/-- One step of the joker-interleaving loop of `Remi.#sortRunCards`: given the
sorted regular cards and the joker list, pushes each regular card and fills the
gap to the next regular card with as many jokers as remain, appending the
leftover jokers at the end.  Gap computation uses the source's per-pair ace
adjustment (`current.value === 1 && next.value >= 11 ? 14 : current.value`). -/
def interleaveJokers : List Card → List Card → List Card
  | [], jokers => jokers
  | [r], jokers => r :: jokers
  | r₁ :: r₂ :: rest, jokers =>
    let currentVal : Int := if r₁.value = 1 ∧ 11 ≤ r₂.value then 14 else r₁.value
    let nextVal : Int := if r₂.value = 1 ∧ 11 ≤ r₁.value then 14 else r₂.value
    let gap : Int := nextVal - currentVal - 1
    let jokersToInsert : Nat := min gap.toNat jokers.length
    r₁ :: (jokers.take jokersToInsert ++ interleaveJokers (r₂ :: rest) (jokers.drop jokersToInsert))

/-- `Remi.#sortRunCards`: separates jokers from regular cards, sorts the
regular cards by value — treating an ace as 14 when some regular card has
value ≥ 11 (`hasHighCards`) — and re-inserts the jokers into the gaps,
leftover jokers trailing.  The TS `Array.sort` is stable; a stable insertion
sort over the same ascending key gives the identical order. -/
def sortRunCards (cards : List Card) : List Card :=
  let jokers := cards.filter (fun c => isJoker c)
  let regulars := cards.filter (fun c => !isJoker c)
  let hasHighCards := regulars.any (fun r => 11 ≤ r.value)
  let key : Card → Int := fun c => if c.value = 1 ∧ hasHighCards then 14 else c.value
  let sortedRegulars := jsSort (fun a b => key a - key b) regulars
  interleaveJokers sortedRegulars jokers

/-- `Remi.#validatePositionalRun` on the regular (non-joker) cards paired with
their physical indices: each consecutive pair of regular cards must differ by
exactly (number of jokers between them + 1), trying ace as 1 first and as 14
if that fails, and the ascending/descending direction of the accepted steps
must be constant over the whole sequence. -/
def positionalSteps : List (Nat × Int) → Option Bool → Bool
  | [], _ => true
  | [_], _ => true
  | (i₁, v₁) :: (i₂, v₂) :: rest, dir =>
    let jokersBetween : Nat := i₂ - i₁ - 1
    let requiredGap : Int := (jokersBetween : Int) + 1
    let diff := v₂ - v₁
    -- CHECK 1: standard low ace
    let step₁ : Option Bool := if diff.natAbs = requiredGap.natAbs then some (0 < diff) else none
    -- CHECK 2: high ace, only when one of the pair is an ace
    let step₂ : Option Bool :=
      match step₁ with
      | some d => some d
      | none =>
        if v₁ = 1 ∨ v₂ = 1 then
          let v₁h := if v₁ = 1 then 14 else v₁
          let v₂h := if v₂ = 1 then 14 else v₂
          let diffHigh := v₂h - v₁h
          if diffHigh.natAbs = requiredGap.natAbs then some (0 < diffHigh) else none
        else none
    match step₂ with
    | none => false
    | some stepAsc =>
      -- CHECK 3: direction must not reverse
      match dir with
      | none => positionalSteps ((i₂, v₂) :: rest) (some stepAsc)
      | some asc =>
        if asc ≠ stepAsc then false
        else positionalSteps ((i₂, v₂) :: rest) (some asc)

/-- `Remi.#validatePositionalRun`: extracts the regular cards with their
indices; fewer than two regular cards is vacuously valid. -/
def validatePositionalRun (cards : List Card) : Bool :=
  let indexedRegulars :=
    (cards.enum.filter (fun p => !isJoker p.2)).map (fun p => (p.1, p.2.value))
  positionalSteps indexedRegulars none

/-- `Remi.#isValidRun`: at least 3 cards, at least one regular card, all
regular cards of one suit, and the positional gap rule holds on the sorted
sequence. -/
def isValidRun (cards : List Card) : Bool :=
  if cards.length < 3 then false
  else
    let regularCards := cards.filter (fun c => !isJoker c)
    if regularCards.length = 0 then false
    else
      let targetSuit := (regularCards.headD default).suit
      if !(regularCards.all (fun c => c.suit = targetSuit)) then false
      else validatePositionalRun (sortRunCards cards)

/-- `Remi.#isValidMeld`. -/
def isValidMeld (cards : List Card) : Bool :=
  isValidSet cards || isValidRun cards

/-- `Remi.#canCardsBeAdjacent`: only adjacent jokers are forbidden. -/
def canCardsBeAdjacent (c₁ c₂ : Card) : Bool :=
  !(isJoker c₁ && isJoker c₂)

/-- `Remi.#buildSequenceWithJokers`: the value each physical slot of the meld
stands for, extrapolated from the leftmost anchor: when the sorted regular
values run from an ace up past 10 the sequence is pinned to end at 14,
otherwise it starts at the minimum regular value minus the number of leading
jokers. -/
def buildSequenceWithJokers (meld : List Card) (sortedValues : List Int) : List Int :=
  let minValue := sortedValues.headD 0
  let leadingJokers := (meld.takeWhile (fun c => isJoker c)).length
  let startValue : Int :=
    if sortedValues.headD 0 = 1 ∧ 10 < sortedValues.getLastD 0 then
      14 - (meld.length : Int) + 1
    else minValue - leadingJokers
  (List.range meld.length).map (fun i => startValue + i)

/-- `Remi.#getJokerValueInRun`: value represented by `joker` at its position
in `meld`, converted to points. -/
def getJokerValueInRun (joker : Card) (meld : List Card) (regularCards : List Card) : Nat :=
  let sortedValues := jsSort (fun (a b : Int) => a - b) (regularCards.map (·.value))
  let sequence := buildSequenceWithJokers meld sortedValues
  let jokerPositionInMeld := meld.findIdx (fun c => c.id = joker.id)
  pointValueOfValue (sequence.getD jokerPositionInMeld 0)

/-- `Remi.#getJokerValueInMeld`: in a valid set the joker scores the set's
common value; in a valid run the value implied by its position; otherwise 0. -/
def getJokerValueInMeld (joker : Card) (meld : List Card) : Nat :=
  let regularCards := meld.filter (fun c => !isJoker c)
  if regularCards.length = 0 then 0
  else if isValidSet meld then cardPointValue (regularCards.headD default)
  else if isValidRun meld then getJokerValueInRun joker meld regularCards
  else 0

/-- `Remi.#calculateMeldValue`: sum of the card point values, jokers scoring
what they stand for. -/
def calculateMeldValue (meld : List Card) : Nat :=
  meld.foldl (fun sum c =>
    if isJoker c then sum + getJokerValueInMeld c meld
    else sum + cardPointValue c) 0

/-- `Remi.#calculateTotalMeldScore`. -/
def calculateTotalMeldScore (melds : List (List Card)) : Nat :=
  melds.foldl (fun sum m => sum + calculateMeldValue m) 0

/-- `Remi.#sortMeldForDisplay`: runs are sorted, sets kept as-is. -/
def sortMeldForDisplay (meld : List Card) : List Card :=
  if isValidRun meld then sortRunCards meld else meld

/-- `Remi.#getJokerRepresentedValueInRun` (used by `#doesCardReplaceJoker`). -/
def getJokerRepresentedValueInRun (joker : Card) (meld : List Card) : Int :=
  let regularCards := meld.filter (fun c => !isJoker c)
  let sortedValues := jsSort (fun (a b : Int) => a - b) (regularCards.map (·.value))
  let sequence := buildSequenceWithJokers meld sortedValues
  let jokerPositionInMeld := meld.findIdx (fun c => c.id = joker.id)
  sequence.getD jokerPositionInMeld 0

/-- `Remi.#doesCardReplaceJoker`: for a set-shaped meld the joker can only be
replaced when the meld already holds 3 regular cards and the new card
completes the set (same value, unused suit); for a run-shaped meld the card
must have the run's suit and exactly the value the joker represents. -/
def doesCardReplaceJoker (card joker : Card) (meld : List Card) : Bool :=
  if meld.findIdx (fun c => c.id = joker.id) = meld.length then false
  else
    let regularCards := meld.filter (fun c => !isJoker c)
    if regularCards.length = 0 then false
    else
      let allSameValue := regularCards.all (fun c => c.value = (regularCards.headD default).value)
      let allDifferentSuits :=
        (regularCards.map (·.suit)).dedup.length = regularCards.length
      if allSameValue && allDifferentSuits then
        -- SET branch
        if regularCards.length < 3 then false
        else
          let isCorrectValue := card.value = (regularCards.headD default).value
          let isUniqueSuit := !(regularCards.any (fun c => c.suit = card.suit))
          isCorrectValue && isUniqueSuit
      else
        let allSameSuit := regularCards.all (fun c => c.suit = (regularCards.headD default).suit)
        if allSameSuit then
          -- RUN branch
          let jokerRepresentsValue := getJokerRepresentedValueInRun joker meld
          let isCorrectSuit := card.suit = (regularCards.headD default).suit
          let isCorrectValue := card.value = jokerRepresentsValue
          isCorrectSuit && isCorrectValue
        else false

/-- `MeldValidationResult` from `remi.ts` (the `selectedCards` echo field is
carried implicitly by the caller and omitted; `meldScores` kept). -/
structure MeldValidationResult where
  validMelds : List (List Card)
  invalidCards : List Card
  totalScore : Nat
  meldScores : List Nat
  meetsOpenRequirement : Bool
  minimumNeeded : Nat
  hasOpened : Bool
deriving DecidableEq, Repr

/-- Greedy grouping state of `Remi.#splitIntoMeldGroups`: starting at absolute
index `i`, extend the group while `#canCardsBeAdjacent` holds. -/
def greedyGroup (cards : List Card) (i : Nat) : List Card :=
  match cards.drop i with
  | [] => []
  | c :: rest => c :: growGroup c rest
where
  growGroup : Card → List Card → List Card
  | _, [] => []
  | last, c :: rest =>
    if canCardsBeAdjacent last c then c :: growGroup c rest else []

/-- Split-point search of `Remi.#splitIntoMeldGroups` step 2: try split points
3 … len−3 (first valid one wins).  `splitRec` is the recursive re-entry on the
absolute remainder. -/
def findSplit (splitRec : List Card → List (List Card)) (cards : List Card)
    (i : Nat) (group : List Card) : Option (List Card × List (List Card) × Nat) :=
  go group.length 3
where
  go : Nat → Nat → Option (List Card × List (List Card) × Nat)
  | 0, _ => none
  | k + 1, sp =>
    if sp + 3 ≤ group.length then
      let meldCandidate := group.take sp
      if isValidMeld meldCandidate then
        let remainderStartIndex := i + sp
        let remainder := cards.drop remainderStartIndex
        let remainingMelds := splitRec remainder
        if remainingMelds.length ≠ 0 then
          some (meldCandidate, remainingMelds, remainderStartIndex)
        else go k (sp + 1)
      else go k (sp + 1)
    else none

/-- `Remi.#splitIntoMeldGroups`'s outer `while` loop, with `fuel` bounding the
total number of loop iterations and recursive re-entries (the source
recursion terminates because the index strictly advances; any fuel at least
`4 ^ cards.length` is more than the source can consume, and every call site
passes a fuel that large).  The recursive re-entry on the remainder inlines
the `< 3` early return of `#splitIntoMeldGroups`. -/
def splitLoop : Nat → List Card → Nat → List (List Card) → List (List Card)
  | 0, _, _, acc => acc
  | f + 1, cards, i, acc =>
    if i < cards.length then
      let currentGroup := greedyGroup cards i
      let bestSplit :=
        if 6 ≤ currentGroup.length then
          findSplit (fun rem => if rem.length < 3 then [] else splitLoop f rem 0 [])
            cards i currentGroup
        else none
      match bestSplit with
      | some (cand, remMelds, remStart) =>
        let used := remMelds.foldl (fun t m => t + m.length) 0
        splitLoop f cards (remStart + used) (acc ++ [cand] ++ remMelds)
      | none =>
        if 3 ≤ currentGroup.length ∧ isValidMeld currentGroup then
          splitLoop f cards (i + currentGroup.length) (acc ++ [currentGroup])
        else splitLoop f cards (i + 1) acc
    else acc

/-- `Remi.#splitIntoMeldGroups` with the default (always sufficient) fuel. -/
def splitIntoMeldGroups (cards : List Card) : List (List Card) :=
  if cards.length < 3 then [] else splitLoop (4 ^ cards.length) cards 0 []

/-- `Remi.#createEmptyValidation`. -/
def createEmptyValidation (selectedCards : List Card) : MeldValidationResult :=
  { validMelds := []
    invalidCards := selectedCards
    totalScore := 0
    meldScores := []
    meetsOpenRequirement := false
    minimumNeeded := 51
    hasOpened := false }

end Remi

/-- `GamePhase` from `game-event.ts`. -/
inductive GamePhase where
  | DRAW | MELD | DISCARD | GAME_OVER
deriving DecidableEq, Repr

/-- The `Remi` engine's private mutable state (fields of the `Remi` class plus
the two piles of its `Deck`).  `#currentScore` / `#currentMelds` are write-only
UI scratch and omitted. -/
structure GameState where
  drawPile : List Card
  discardPile : List Card
  playerHands : List (List Card)
  playerMelds : List (List (List Card))
  playersHaveOpened : List Bool
  currentPlayer : Nat
  phase : GamePhase
  numPlayers : Nat
deriving DecidableEq, Repr

namespace Remi

/-- `hand.includes(card)` — JS reference equality, modelled by card identity. -/
def handIncludes (hand : List Card) (card : Card) : Bool :=
  hand.any (fun c => c.id = card.id)

/-- `hand.splice(hand.indexOf(card), 1)` guarded by `idx > -1`: removes the
first occurrence of the card (by identity) if present. -/
def removeFirstById (hand : List Card) (card : Card) : List Card :=
  match hand with
  | [] => []
  | c :: rest => if c.id = card.id then rest else c :: removeFirstById rest card

/-- `Remi.validateMelds` (result only; the method's writes to the
`#currentScore`/`#currentMelds` scratch fields do not feed back into any rule
logic). -/
def validateMelds (s : GameState) (playerIndex : Nat) (selectedCards : List Card) :
    MeldValidationResult :=
  if selectedCards.length < 3 then createEmptyValidation selectedCards
  else
    let validMelds := splitIntoMeldGroups selectedCards
    let meldScores := validMelds.map calculateMeldValue
    let totalScore := meldScores.foldl (· + ·) 0
    let cardsInMelds := validMelds.flatten
    let invalidCards := selectedCards.filter (fun c => !handIncludes cardsInMelds c)
    let hasOpened := s.playersHaveOpened.getD playerIndex false
    let openRequirement := 51
    let meetsOpenRequirement := hasOpened || openRequirement ≤ totalScore
    let minimumNeeded := if hasOpened then 0 else openRequirement - totalScore
    { validMelds, invalidCards, totalScore, meldScores, meetsOpenRequirement,
      minimumNeeded, hasOpened }

/-- `Deck.shuffleInDiscardPile` (from `deck.ts`): every discard-pile card is
flipped and pushed onto the draw pile, the discard pile is emptied. -/
def shuffleInDiscardPile (s : GameState) : GameState :=
  { s with drawPile := s.drawPile ++ s.discardPile.map Card.flip
           discardPile := [] }

/-- `Remi.shuffleDiscardIntoDeck`: no-op unless the draw pile is empty. -/
def shuffleDiscardIntoDeck (s : GameState) : GameState :=
  if s.drawPile.length ≠ 0 then s else shuffleInDiscardPile s

/-- `Remi.newGame`, parameterised by the post-shuffle order of the
`new Deck(2)` card pool (the source shuffles with `Math.random`).  Deals 14
rounds of one card (flipped) to each player; `draw()` takes from the front. -/
def newGame (shuffledDeck : List Card) (numPlayers : Nat) : GameState :=
  let init : GameState :=
    { drawPile := shuffledDeck
      discardPile := []
      playerHands := List.replicate numPlayers []
      playerMelds := List.replicate numPlayers []
      playersHaveOpened := List.replicate numPlayers false
      currentPlayer := 0
      phase := GamePhase.DRAW
      numPlayers := numPlayers }
  (List.range 14).foldl (fun s _ =>
    (List.range numPlayers).foldl (fun s p =>
      match s.drawPile with
      | [] => s  -- source would crash on `draw()!`; unreachable for the 106-card pool
      | c :: rest =>
        { s with drawPile := rest
                 playerHands := s.playerHands.set p (s.playerHands.getD p [] ++ [c.flip]) }) s)
    init

/-- `Remi.drawCard`: returns the success flag and the successor state. -/
def drawCard (s : GameState) (playerIndex : Nat) : Bool × GameState :=
  if s.phase ≠ GamePhase.DRAW then (false, s)
  else if playerIndex ≠ s.currentPlayer then (false, s)
  else if 15 ≤ (s.playerHands.getD playerIndex []).length then (false, s)
  else
    let s₁ := if s.drawPile.length = 0 then shuffleDiscardIntoDeck s else s
    match s₁.drawPile with
    | [] => (false, s₁)
    | c :: rest =>
      let hand := (s₁.playerHands.getD playerIndex []) ++ [c.flip]
      (true, { s₁ with drawPile := rest
                       playerHands := s₁.playerHands.set playerIndex hand
                       phase := GamePhase.MELD })

/-- `Remi.drawFromDiscard`: pops the top (last) discard. -/
def drawFromDiscard (s : GameState) (playerIndex : Nat) : Bool × GameState :=
  if s.phase ≠ GamePhase.DRAW then (false, s)
  else if playerIndex ≠ s.currentPlayer then (false, s)
  else if s.discardPile.length = 0 then (false, s)
  else if 15 ≤ (s.playerHands.getD playerIndex []).length then (false, s)
  else
    match s.discardPile.getLast? with
    | none => (false, s)
    | some card =>
      let hand := (s.playerHands.getD playerIndex []) ++ [card.flip]
      (true, { s with discardPile := s.discardPile.dropLast
                      playerHands := s.playerHands.set playerIndex hand
                      phase := GamePhase.MELD })

/-- `Remi.layDownMelds`: phase/turn gate, all cards in hand, all melds valid,
opening threshold (51) if the player has not opened; on success the sorted
melds move hand → table and the opened flag is set.  Removal of the meld cards
from the hand mirrors the source exactly: per card, `indexOf` + `splice`
guarded by `idx > -1` (a second occurrence of the same card object is silently
skipped). -/
def layDownMelds (s : GameState) (playerIndex : Nat) (melds : List (List Card)) :
    Bool × GameState :=
  if s.phase ≠ GamePhase.MELD ∧ s.phase ≠ GamePhase.DISCARD then (false, s)
  else if playerIndex ≠ s.currentPlayer then (false, s)
  else
    let hand := s.playerHands.getD playerIndex []
    if !(melds.flatten.all (fun c => handIncludes hand c)) then (false, s)
    else if !(melds.all (fun m => isValidSet m || isValidRun m)) then (false, s)
    else
      let hasOpened := s.playersHaveOpened.getD playerIndex false
      let totalScore := calculateTotalMeldScore melds
      if !hasOpened ∧ totalScore < 51 then (false, s)
      else
        let sortedMelds := melds.map sortMeldForDisplay
        let hand' := sortedMelds.flatten.foldl removeFirstById hand
        (true,
          { s with
              playerHands := s.playerHands.set playerIndex hand'
              playerMelds :=
                s.playerMelds.set playerIndex (s.playerMelds.getD playerIndex [] ++ sortedMelds)
              playersHaveOpened :=
                if !hasOpened then s.playersHaveOpened.set playerIndex true
                else s.playersHaveOpened })

/-- `Remi.addCardToMeld`: gate checks, validity of the extended meld, then the
joker-replacement special case, else a plain append. -/
def addCardToMeld (s : GameState) (playerIndex : Nat) (card : Card)
    (meldOwner meldIndex : Nat) : Bool × GameState :=
  if s.phase ≠ GamePhase.MELD ∧ s.phase ≠ GamePhase.DISCARD then (false, s)
  else if playerIndex ≠ s.currentPlayer then (false, s)
  else if !(s.playersHaveOpened.getD playerIndex false) then (false, s)
  else
    match (s.playerMelds.getD meldOwner []).get? meldIndex with
    | none => (false, s)
    | some meld =>
      let hand := s.playerHands.getD playerIndex []
      if !handIncludes hand card then (false, s)
      else
        let testMeld := meld ++ [card]
        if !(isValidSet testMeld || isValidRun testMeld) then (false, s)
        else
          let jokerIndex := meld.findIdx isJoker
          let replaced :=
            if h : jokerIndex < meld.length then
              let joker := meld.get ⟨jokerIndex, h⟩
              let meldWithReplacement := meld.set jokerIndex card
              if (isValidSet meldWithReplacement || isValidRun meldWithReplacement)
                  && doesCardReplaceJoker card joker meld then
                some (joker, meldWithReplacement)
              else none
            else none
          match replaced with
          | some (joker, newMeld) =>
            let hand' := removeFirstById hand card ++ [joker]
            (true,
              { s with
                  playerHands := s.playerHands.set playerIndex hand'
                  playerMelds :=
                    s.playerMelds.set meldOwner
                      ((s.playerMelds.getD meldOwner []).set meldIndex newMeld) })
          | none =>
            let hand' := removeFirstById hand card
            (true,
              { s with
                  playerHands := s.playerHands.set playerIndex hand'
                  playerMelds :=
                    s.playerMelds.set meldOwner
                      ((s.playerMelds.getD meldOwner []).set meldIndex (meld ++ [card])) })

/-- `Remi.endTurn` (private): next player, phase back to DRAW. -/
def endTurn (s : GameState) : GameState :=
  { s with currentPlayer := (s.currentPlayer + 1) % s.numPlayers
           phase := GamePhase.DRAW }

/-- `Remi.endGame` (private): phase becomes GAME_OVER (scores are only
emitted in the event, not stored). -/
def endGame (s : GameState) : GameState :=
  { s with phase := GamePhase.GAME_OVER }

/-- `Remi.discardCard`: moves the card from the hand to the top of the
discard pile; empty hand ends the game, otherwise the turn passes. -/
def discardCard (s : GameState) (playerIndex : Nat) (card : Card) : Bool × GameState :=
  if s.phase ≠ GamePhase.MELD ∧ s.phase ≠ GamePhase.DISCARD then (false, s)
  else if playerIndex ≠ s.currentPlayer then (false, s)
  else
    let hand := s.playerHands.getD playerIndex []
    if !handIncludes hand card then (false, s)
    else
      let hand' := removeFirstById hand card
      let s₁ := { s with playerHands := s.playerHands.set playerIndex hand'
                         discardPile := s.discardPile ++ [card] }
      if hand'.length = 0 then (true, endGame s₁) else (true, endTurn s₁)

/-- `Remi.reorderHand`: moves the card at `fromIndex` to `toIndex`. -/
def reorderHand (s : GameState) (playerIndex fromIndex toIndex : Nat) :
    Bool × GameState :=
  let hand := s.playerHands.getD playerIndex []
  if !(fromIndex < hand.length) then (false, s)
  else if !(toIndex < hand.length) then (false, s)
  else
    match hand.get? fromIndex with
    | none => (false, s)
    | some card =>
      let removed := hand.eraseIdx fromIndex
      let hand' := removed.take toIndex ++ [card] ++ removed.drop toIndex
      (true, { s with playerHands := s.playerHands.set playerIndex hand' })

end Remi

/-! ## AI player (`ai-player.ts`) -/

/-- `AIDifficulty`. -/
inductive AIDifficulty where
  | EASY | MEDIUM | HARD
deriving DecidableEq, Repr

namespace AIPlayer

/-- `AIPlayer.isJoker` (the AI keeps its own copy of the predicate). -/
def isJoker (c : Card) : Bool :=
  c.suit = Suit.JOKER_RED || c.suit = Suit.JOKER_BLACK

/-- `AIPlayer.getCardPoints`. -/
def getCardPoints (c : Card) : Nat :=
  if isJoker c then 0
  else if c.value = 1 then 10
  else if 2 ≤ c.value ∧ c.value ≤ 10 then c.value.toNat
  else if 11 ≤ c.value ∧ c.value ≤ 13 then 10
  else if c.value = 14 then 10
  else 0

/-- `AIPlayer.calcScore`: plain point sum (jokers 0). -/
def calcScore (meld : List Card) : Nat :=
  meld.foldl (fun sum c => sum + getCardPoints c) 0

/-- `AIPlayer.calculateDeadwood`. -/
def calculateDeadwood (cards : List Card) : Nat :=
  cards.foldl (fun sum c => sum + getCardPoints c) 0

/-- `AIPlayer.isValidSet` (the AI's own variant: no upper length check other
than regulars + jokers ≤ 4). -/
def isValidSet (cards : List Card) : Bool :=
  if cards.length < 3 then false
  else
    let regulars := cards.filter (fun c => !isJoker c)
    let jokers := cards.filter (fun c => isJoker c)
    if regulars.length = 0 then false
    else
      let targetValue := (regulars.headD default).value
      if !(regulars.all (fun c => c.value = targetValue)) then false
      else if !((regulars.map (·.suit)).dedup.length = regulars.length) then false
      else if 4 < regulars.length + jokers.length then false
      else true

/-- Joker interleaving of `AIPlayer.sortRunCardsForValidation` /
`orderCardsInMeldAdvanced`: same as the engine's but the ace adjustment uses
the global `hasHighCards` flag of the whole meld. -/
def interleaveJokersAI (hasHighCards : Bool) : List Card → List Card → List Card
  | [], jokers => jokers
  | [r], jokers => r :: jokers
  | r₁ :: r₂ :: rest, jokers =>
    let currentVal : Int := if r₁.value = 1 ∧ hasHighCards then 14 else r₁.value
    let nextVal : Int := if r₂.value = 1 ∧ hasHighCards then 14 else r₂.value
    let gap : Int := nextVal - currentVal - 1
    let jokersToInsert : Nat := min gap.toNat jokers.length
    r₁ :: (jokers.take jokersToInsert ++
      interleaveJokersAI hasHighCards (r₂ :: rest) (jokers.drop jokersToInsert))

/-- `AIPlayer.sortRunCardsForValidation`. -/
def sortRunCardsForValidation (cards : List Card) : List Card :=
  let jokers := cards.filter (fun c => isJoker c)
  let regulars := cards.filter (fun c => !isJoker c)
  let hasHighCards := regulars.any (fun r => 11 ≤ r.value)
  let key : Card → Int := fun c => if c.value = 1 ∧ hasHighCards then 14 else c.value
  let sortedRegulars := jsSort (fun a b => key a - key b) regulars
  interleaveJokersAI hasHighCards sortedRegulars jokers

/-- `AIPlayer.validatePositionalRun` (the AI's copy; logic identical to the
engine's). -/
def validatePositionalRun (cards : List Card) : Bool :=
  let indexedRegulars :=
    (cards.enum.filter (fun p => !isJoker p.2)).map (fun p => (p.1, p.2.value))
  Remi.positionalSteps indexedRegulars none

/-- `AIPlayer.isValidRun`. -/
def isValidRun (cards : List Card) : Bool :=
  if cards.length < 3 then false
  else
    let regularCards := cards.filter (fun c => !isJoker c)
    if regularCards.length = 0 then false
    else
      let targetSuit := (regularCards.headD default).suit
      if !(regularCards.all (fun c => c.suit = targetSuit)) then false
      else validatePositionalRun (sortRunCardsForValidation cards)

/-- `AIPlayer.getCombinations`: ordered combinations of the given size. -/
def getCombinations : List Card → Nat → List (List Card)
  | _, 0 => []  -- the source never calls size 0 (sizes start at 3)
  | arr, 1 => if 1 > arr.length then [] else arr.map (fun c => [c])
  | arr, n + 2 =>
    if n + 2 > arr.length then []
    else
      (List.range (arr.length - (n + 2) + 1)).foldl (fun acc i =>
        acc ++ (getCombinations (arr.drop (i + 1)) (n + 1)).map
          (fun tail => arr.getD i default :: tail)) []

/-- `MeldCandidate`.  The source also stores `efficiency = score / cards.length`
(a float); it is functionally determined by `score` and `cards`, and the
comparator below performs its comparisons exactly by cross-multiplication, so
the field is not duplicated here. -/
structure MeldCandidate where
  cards : List Card
  score : Nat
  isSet : Bool          -- `type: 'SET' | 'RUN'`
  priority : Nat
deriving DecidableEq, Repr

/-- `HandSolution`. -/
structure HandSolution where
  melds : List (List Card)
  remainingCards : List Card
  totalScore : Nat
  deadwoodValue : Nat
  canGoOut : Bool
deriving DecidableEq, Repr

/-- `AIPlayer.calculateMeldPriority`. -/
def calculateMeldPriority (meld : List Card) (isSet : Bool) : Nat :=
  meld.length * 2
    + (meld.filter (fun c => isJoker c)).length * 5
    + (if isSet then 0 else 3)
    + (meld.filter (fun c => 10 ≤ getCardPoints c)).length * 2

/-- `AIPlayer.deduplicateCandidates`: dedup by the sorted list of card ids. -/
def deduplicateCandidates (candidates : List MeldCandidate) : List MeldCandidate :=
  go candidates []
where
  go : List MeldCandidate → List (List Nat) → List MeldCandidate
  | [], _ => []
  | c :: rest, seen =>
    let key := jsSort (fun (a b : Nat) => (a : Int) - (b : Int)) (c.cards.map (·.id))
    if key ∈ seen then go rest seen
    else c :: go rest (key :: seen)

/-- `AIPlayer.findAllValidCandidates`: every combination of 3 … min(|hand|,13)
cards is run through the engine's `validateMelds`; each returned meld group
becomes a candidate. -/
def findAllValidCandidates (s : GameState) (playerIndex : Nat) (hand : List Card) :
    List MeldCandidate :=
  let handSize := hand.length
  let sizes := (List.range (min handSize 13 + 1)).filter (fun k => 3 ≤ k)
  let candidates :=
    sizes.foldl (fun acc size =>
      (getCombinations hand size).foldl (fun acc combo =>
        let validation := Remi.validateMelds s playerIndex combo
        acc ++ (List.range validation.validMelds.length).foldl (fun acc i =>
          let meld := validation.validMelds.getD i []
          let score := validation.meldScores.getD i 0
          let isSet := isValidSet meld
          let priority := calculateMeldPriority meld isSet
          acc ++ [{ cards := meld, score, isSet, priority }]) []) acc) []
  deduplicateCandidates candidates

/-- Candidate ordering of `solveHandWithValidation`: efficiency (with 0.5
tolerance), then priority, then score — each descending.  With
`efficiency = score / cards.length`, the test
`|b.efficiency − a.efficiency| > 0.5` and the sign of
`b.efficiency − a.efficiency` are computed exactly over the common positive
denominator `a.cards.length * b.cards.length` (every candidate meld has at
least 3 cards). -/
def candidateCmp (a b : MeldCandidate) : Int :=
  let d : Int := (b.score : Int) * a.cards.length - (a.score : Int) * b.cards.length
  if (a.cards.length : Int) * b.cards.length < 2 * d.natAbs then d
  else if b.priority ≠ a.priority then (b.priority : Int) - (a.priority : Int)
  else (b.score : Int) - (a.score : Int)

/-- `AIPlayer.isBetterSolution`: going out first, then score with a 5-point
tolerance resolved by lower deadwood. -/
def isBetterSolution (candidate current : HandSolution) : Bool :=
  if candidate.canGoOut && !current.canGoOut then true
  else if !candidate.canGoOut && current.canGoOut then false
  else if current.totalScore + 5 < candidate.totalScore then true
  else if candidate.totalScore + 5 < current.totalScore then false
  else if ((candidate.totalScore : Int) - (current.totalScore : Int)).natAbs ≤ 5 then
    decide (candidate.deadwoodValue < current.deadwoodValue)
  else decide (current.totalScore < candidate.totalScore)

/-- `AIPlayer.canMakeMeld`: all meld cards can be taken (by identity, with
multiplicity) from the available cards. -/
def canMakeMeld : List Card → List Card → Bool
  | [], _ => true
  | c :: cs, avail =>
    if avail.any (fun a => a.id = c.id) then
      canMakeMeld cs (Remi.removeFirstById avail c)
    else false

/-- `AIPlayer.removeCards`. -/
def removeCards (source : List Card) (toRemove : List Card) : List Card :=
  toRemove.foldl Remi.removeFirstById source

/-- Solution for "stop here" in the backtracking search. -/
def stopSolution (chosen : List (List Card)) (avail : List Card) (score : Nat) :
    HandSolution :=
  { melds := chosen
    remainingCards := avail
    totalScore := score
    deadwoodValue := calculateDeadwood avail
    canGoOut := avail.length = 1 }

/-- `AIPlayer.findBestCombinationAdvanced`: backtracking over the ordered
candidate list (each step either commits candidate `i` and recurses on the
candidates after it, or skips it), depth-capped at 25.  `fuel` only makes the
recursion structural; any fuel above the candidate-list length is never
exhausted (each recursive call strictly shortens the list). -/
def findBestCombinationAdvanced :
    Nat → List MeldCandidate → List Card → List (List Card) → Nat → Nat → HandSolution
  | 0, _, avail, chosen, score, _ => stopSolution chosen avail score
  | fuel + 1, candidates, avail, chosen, score, depth =>
    if 25 < depth then stopSolution chosen avail score
    else
      (List.range candidates.length).foldl (fun best i =>
        match candidates.get? i with
        | none => best
        | some candidate =>
          if canMakeMeld candidate.cards avail then
            let sub := findBestCombinationAdvanced fuel (candidates.drop (i + 1))
              (removeCards avail candidate.cards) (chosen ++ [candidate.cards])
              (score + candidate.score) (depth + 1)
            if isBetterSolution sub best then sub else best
          else best) (stopSolution chosen avail score)

/-- `AIPlayer.solveHandWithValidation`: candidates, strategic sort,
backtracking search, deadwood/go-out report. -/
def solveHandWithValidation (s : GameState) (playerIndex : Nat) (hand : List Card) :
    HandSolution :=
  let candidates := findAllValidCandidates s playerIndex hand
  let sorted := jsSort candidateCmp candidates
  let solution := findBestCombinationAdvanced (sorted.length + 1) sorted hand [] 0 0
  { solution with
      deadwoodValue := calculateDeadwood solution.remainingCards
      canGoOut := solution.remainingCards.length = 1 }

/-- Alphabetical rank of the suit string (JS `localeCompare` on the
`CARD_SUIT` names). -/
def suitOrd : Suit → Nat
  | Suit.CLUB => 0
  | Suit.DIAMOND => 1
  | Suit.HEART => 2
  | Suit.JOKER_BLACK => 3
  | Suit.JOKER_RED => 4
  | Suit.SPADE => 5

/-- `AIPlayer.orderCardsInMeldAdvanced`: sets are suit-ordered with jokers
last; runs re-sorted with the global-high-ace gap rule. -/
def orderCardsInMeldAdvanced (meld : List Card) : List Card :=
  if !isValidRun meld then
    jsSort (fun a b =>
      if isJoker a then 1
      else if isJoker b then -1
      else (suitOrd a.suit : Int) - (suitOrd b.suit : Int)) meld
  else
    let jokers := meld.filter (fun c => isJoker c)
    let regulars := meld.filter (fun c => !isJoker c)
    if regulars.length = 0 then meld
    else
      let hasHighCards := regulars.any (fun r => 11 ≤ r.value)
      let key : Card → Int := fun c => if c.value = 1 ∧ hasHighCards then 14 else c.value
      let sortedRegulars := jsSort (fun a b => key a - key b) regulars
      interleaveJokersAI hasHighCards sortedRegulars jokers

/-- The difficulty policy (step 2 of `AIPlayer.planMeldAndDiscard`): which of
the solver's melds to lay down this turn. -/
def selectMeldsToLay (difficulty : AIDifficulty) (hand : List Card)
    (hasOpened : Bool) (solution : HandSolution) : List (List Card) :=
  if difficulty = AIDifficulty.HARD then
    if hasOpened then
      if solution.canGoOut ∧ solution.remainingCards.length = 1 then solution.melds
      else if solution.remainingCards.length ≤ 3 ∧ solution.deadwoodValue ≤ 15 then
        solution.melds
      else if 30 ≤ solution.totalScore then
        let highValueMelds := solution.melds.filter (fun m => 15 ≤ calcScore m)
        if highValueMelds.length ≠ 0 then highValueMelds else solution.melds
      else solution.melds.take (max 1 (solution.melds.length / 2))
    else
      if 51 ≤ solution.totalScore then
        let remainingAfterMelds :=
          hand.filter (fun c => !(solution.melds.flatten.any (fun mc => mc.id = c.id)))
        let remainingDeadwood := calculateDeadwood remainingAfterMelds
        if remainingDeadwood ≤ 10 ∧ remainingAfterMelds.length ≤ 2 then []
        else if 70 ≤ solution.totalScore then solution.melds
        else if remainingAfterMelds.length ≤ 4 then solution.melds
        else []
      else []
  else
    if hasOpened then solution.melds
    else if 51 ≤ solution.totalScore then solution.melds
    else []

/-- Step 3.1 of `AIPlayer.planMeldAndDiscard`: if laying the (already
canonically ordered) melds would leave no hand card to discard, hold back
the least valuable meld (lowest score, then smallest). -/
def ensureDiscardable (hand : List Card) (ordered : List (List Card)) :
    List (List Card) :=
  let cardsInMelds := ordered.flatten
  let cardsRemainingAfterMelds :=
    hand.filter (fun c => !(cardsInMelds.any (fun mc => mc.id = c.id)))
  if cardsRemainingAfterMelds.length = 0 ∧ ordered.length ≠ 0 then
    let meldScores := ordered.enum.map (fun p => (p.1, calcScore p.2, p.2.length))
    let sorted := jsSort (fun a b =>
      if a.2.1 ≠ b.2.1 then (a.2.1 : Int) - (b.2.1 : Int)
      else (a.2.2 : Int) - (b.2.2 : Int)) meldScores
    let removedIndex := (sorted.headD (0, 0, 0)).1
    (ordered.enum.filter (fun p => p.1 ≠ removedIndex)).map (·.2)
  else ordered

/-- Steps 1–3.1 of `AIPlayer.planMeldAndDiscard`: solve the hand, apply the
difficulty policy to pick `meldsToLay`, canonically order them (step 3), and
hold back the least valuable meld if the lay-down would consume the whole
hand (step 3.1).  The remaining steps (3.5 and 4) of the source only *read*
`meldsToLay` — they select `cardsToAddToMelds` and `cardToDiscard` — so the
returned melds are exactly the `meldsToLay` of the source's result. -/
def planMeldsToLay (difficulty : AIDifficulty) (s : GameState) (playerIndex : Nat) :
    List (List Card) :=
  let hand := s.playerHands.getD playerIndex []
  let hasOpened := s.playersHaveOpened.getD playerIndex false
  let solution := solveHandWithValidation s playerIndex hand
  ensureDiscardable hand
    ((selectMeldsToLay difficulty hand hasOpened solution).map orderCardsInMeldAdvanced)

end AIPlayer

/-! ## Helper lemmas -/

/-- A filter and its complement partition a list's length. -/
theorem length_filter_add_length_filter_not (l : List α) (p : α → Bool) :
    (l.filter p).length + (l.filter (fun a => !p a)).length = l.length := by
  induction l with
  | nil => rfl
  | cons a t ih =>
    by_cases h : p a <;> simp [List.filter_cons, h, ← ih] <;> omega

/-- `dedup` preserves the length exactly when the list has no duplicates
(the TS `new Set(xs).size === xs.length` idiom). -/
theorem dedup_length_eq_iff {α : Type} [DecidableEq α] (l : List α) :
    l.dedup.length = l.length ↔ l.Nodup := by
  constructor
  · intro h
    have hsub : l.dedup.Sublist l := List.dedup_sublist l
    have := hsub.eq_of_length h
    rw [← this]
    exact l.nodup_dedup
  · intro h
    rw [List.Nodup.dedup h]

/-- Every element equal to the head is the same as pairwise equality of
values in a list of cards. -/
theorem all_value_eq_head_iff_pairwise (r : List Card) (hne : r ≠ []) :
    (r.all (fun c => c.value = (r.headD default).value)) = true ↔
      r.Pairwise (fun a b => a.value = b.value) := by
  match r, hne with
  | h :: t, _ =>
    simp only [List.all_cons, List.headD_cons, Bool.and_eq_true, decide_eq_true_eq,
      List.all_eq_true, List.pairwise_cons]
    constructor
    · rintro ⟨-, hall⟩
      refine ⟨fun b hb => (hall b hb).symm, ?_⟩
      exact List.Pairwise.imp_of_mem (fun {a b} ha hb _ => by
        rw [hall a ha, hall b hb]) (List.pairwise_of_forall (fun _ _ => trivial))
    · rintro ⟨hhead, hpw⟩
      exact ⟨trivial, fun b hb => (hhead b hb).symm⟩

/-- Characterisation of `Remi.#isValidSet` as a conjunction of its checks. -/
theorem isValidSet_iff (cards : List Card) :
    Remi.isValidSet cards = true ↔
      (3 ≤ cards.length ∧ cards.length ≤ 4 ∧
       (cards.filter (fun c => Remi.isJoker c)).length ≤ 1 ∧
       (cards.filter (fun c => !Remi.isJoker c)).length ≠ 0 ∧
       ((cards.filter (fun c => !Remi.isJoker c)).all
         (fun c => c.value = ((cards.filter (fun c => !Remi.isJoker c)).headD default).value))
         = true ∧
       ((cards.filter (fun c => !Remi.isJoker c)).map (·.suit)).dedup.length
         = (cards.filter (fun c => !Remi.isJoker c)).length) := by
  simp only [Remi.isValidSet]
  split_ifs with h1 h2 h3 h4 h5
  · refine iff_of_false (by simp) ?_
    rintro ⟨h3le, h4le, -⟩
    simp only [Bool.or_eq_true, decide_eq_true_eq] at h1
    omega
  · refine iff_of_false (by simp) ?_
    rintro ⟨-, -, hjok, -⟩
    omega
  · refine iff_of_false (by simp) ?_
    rintro ⟨-, -, -, hne, -⟩
    exact hne h3
  · refine iff_of_false (by simp) ?_
    rintro ⟨-, -, -, -, hval, -⟩
    rw [hval] at h4
    simp at h4
  · refine iff_of_false (by simp) ?_
    rintro ⟨-, -, -, -, -, hded⟩
    simp only [Bool.not_eq_true', decide_eq_false_iff_not] at h5
    exact h5 hded
  · refine iff_of_true rfl ?_
    simp only [Bool.or_eq_true, decide_eq_true_eq, not_or, Nat.not_lt, Nat.not_gt_eq] at h1
    simp only [Bool.not_eq_true', decide_eq_false_iff_not] at h4 h5
    refine ⟨h1.1, h1.2, by omega, by omega, ?_, by omega⟩
    rw [Bool.not_eq_false] at h4
    exact h4

/-- Spec-side set predicate (§4.1/§8): 3–4 cards, at most one joker, all
non-joker cards share a rank, non-joker suits pairwise distinct. -/
def isSet_spec (cards : List Card) : Prop :=
  (cards.length = 3 ∨ cards.length = 4) ∧
  (cards.filter (fun c => Remi.isJoker c)).length ≤ 1 ∧
  (cards.filter (fun c => !Remi.isJoker c)).Pairwise (fun a b => a.value = b.value) ∧
  (cards.filter (fun c => !Remi.isJoker c)).Pairwise (fun a b => a.suit ≠ b.suit)

/-- **C2** (Set legality): for every sequence of cards the set validator
accepts exactly the sequences with 3 or 4 cards, at most one joker, all
non-joker cards of one rank and pairwise distinct non-joker suits; in
particular `[5♥, 5♦, Joker]` is a valid set. -/
theorem C2_set_legality :
    (∀ cards : List Card, Remi.isValidSet cards = true ↔ isSet_spec cards) ∧
    Remi.isValidSet
      [⟨Suit.HEART, 5, true, 0⟩, ⟨Suit.DIAMOND, 5, true, 1⟩,
       ⟨Suit.JOKER_RED, 14, true, 2⟩] = true := by
  constructor
  · intro cards
    rw [isValidSet_iff]
    have hpart := length_filter_add_length_filter_not cards (fun c => Remi.isJoker c)
    constructor
    · rintro ⟨h3, h4, hjok, hne, hval, hsuit⟩
      refine ⟨by omega, hjok, ?_, ?_⟩
      · exact (all_value_eq_head_iff_pairwise _ (by
          intro h; rw [h] at hne; exact hne rfl)).mp hval
      · have hnd : ((cards.filter (fun c => !Remi.isJoker c)).map (·.suit)).Nodup :=
          (dedup_length_eq_iff _).mp (by simpa using hsuit)
        exact List.pairwise_map.mp hnd
    · rintro ⟨hlen, hjok, hval, hsuit⟩
      have hne : (cards.filter (fun c => !Remi.isJoker c)).length ≠ 0 := by omega
      refine ⟨by omega, by omega, hjok, hne, ?_, ?_⟩
      · exact (all_value_eq_head_iff_pairwise _ (by
          intro h; rw [h] at hne; exact hne rfl)).mpr hval
      · refine (dedup_length_eq_iff _).mpr ?_ |>.trans (by simp)
        exact List.pairwise_map.mpr hsuit
  · rfl

/-- Concrete cards used in the example-based theorems (ids are arbitrary but
pairwise distinct; a double deck makes two physical copies of a rank/suit
available). -/
def mkCard (s : Suit) (v : Int) (i : Nat) : Card := ⟨s, v, true, i⟩

/-- A run accepted by `Remi.#isValidRun` has all its non-joker cards of one
suit. -/
theorem isValidRun_regulars_same_suit (cards : List Card)
    (h : Remi.isValidRun cards = true) :
    ∀ c₁ ∈ cards.filter (fun c => !Remi.isJoker c),
      ∀ c₂ ∈ cards.filter (fun c => !Remi.isJoker c), c₁.suit = c₂.suit := by
  intro c₁ h₁ c₂ h₂
  simp only [Remi.isValidRun] at h
  split_ifs at h with hlen hreg hsuit
  rw [Bool.not_eq_true', Bool.not_eq_false] at hsuit
  simp only [List.all_eq_true, decide_eq_true_eq] at hsuit
  rw [hsuit c₁ h₁, hsuit c₂ h₂]

/-- A list consisting only of jokers is never a valid run. -/
theorem isValidRun_all_jokers (cards : List Card)
    (h : ∀ c ∈ cards, Remi.isJoker c = true) : Remi.isValidRun cards = false := by
  simp only [Remi.isValidRun]
  split_ifs with hlen hreg hsuit
  · rfl
  · rfl
  · rfl
  · exfalso
    apply hreg
    have : cards.filter (fun c => !Remi.isJoker c) = [] := by
      apply List.filter_eq_nil_iff.mpr
      intro c hc
      simp [h c hc]
    rw [this]
    rfl

/-- **C3** (Run legality, ambiguous ace, direction consistency): the run
validator accepts `[Q♠, K♠, A♠]` (high ace) and the ascending and descending
club runs, rejects the wraparound `[Q♠, K♠, A♠, 2♠]`, rejects a positional
sequence whose direction reverses even though each local gap is individually
satisfiable (`[5♣, 6♣, 5♣]`), rejects all-joker sequences, and accepts only
sequences whose non-joker cards share one suit. -/
theorem C3_run_legality :
    Remi.isValidRun
      [mkCard Suit.SPADE 12 1, mkCard Suit.SPADE 13 2, mkCard Suit.SPADE 1 3] = true ∧
    Remi.isValidRun
      [mkCard Suit.SPADE 12 1, mkCard Suit.SPADE 13 2, mkCard Suit.SPADE 1 3,
       mkCard Suit.SPADE 2 4] = false ∧
    Remi.isValidRun
      [mkCard Suit.CLUB 4 5, mkCard Suit.CLUB 5 6, mkCard Suit.CLUB 6 7] = true ∧
    Remi.isValidRun
      [mkCard Suit.CLUB 6 7, mkCard Suit.CLUB 5 6, mkCard Suit.CLUB 4 5] = true ∧
    Remi.validatePositionalRun
      [mkCard Suit.CLUB 5 6, mkCard Suit.CLUB 6 7, mkCard Suit.CLUB 5 8] = false ∧
    (∀ cards : List Card,
      (∀ c ∈ cards, Remi.isJoker c = true) → Remi.isValidRun cards = false) ∧
    (∀ cards : List Card, Remi.isValidRun cards = true →
      ∀ c₁ ∈ cards.filter (fun c => !Remi.isJoker c),
        ∀ c₂ ∈ cards.filter (fun c => !Remi.isJoker c), c₁.suit = c₂.suit) :=
  ⟨by decide, by decide, by decide, by decide, by decide,
   isValidRun_all_jokers, isValidRun_regulars_same_suit⟩

/-- Witness for C3: the hypothesis-bearing conjuncts instantiated — a
three-joker sequence really is rejected. -/
theorem C3_run_legality_witness :
    Remi.isValidRun
      [mkCard Suit.JOKER_RED 14 1, mkCard Suit.JOKER_BLACK 14 2,
       mkCard Suit.JOKER_RED 14 3] = false :=
  C3_run_legality.2.2.2.2.2.1 _ (by decide)

/-- **C4** (Joker scoring in a run): in the valid run `[3♦, Joker, 5♦]` the
joker scores the positionally implied rank 4 and the meld totals
3 + 4 + 5 = 12; in `[10♦, Joker, Q♦]` the same joker card scores 10
(standing for the jack), so the joker's value is positional, not fixed. -/
theorem C4_joker_run_value :
    Remi.isValidRun
      [mkCard Suit.DIAMOND 3 1, mkCard Suit.JOKER_RED 14 2, mkCard Suit.DIAMOND 5 3]
      = true ∧
    Remi.getJokerValueInMeld (mkCard Suit.JOKER_RED 14 2)
      [mkCard Suit.DIAMOND 3 1, mkCard Suit.JOKER_RED 14 2, mkCard Suit.DIAMOND 5 3]
      = 4 ∧
    Remi.calculateMeldValue
      [mkCard Suit.DIAMOND 3 1, mkCard Suit.JOKER_RED 14 2, mkCard Suit.DIAMOND 5 3]
      = 12 ∧
    Remi.getJokerValueInMeld (mkCard Suit.JOKER_RED 14 2)
      [mkCard Suit.DIAMOND 10 1, mkCard Suit.JOKER_RED 14 2, mkCard Suit.DIAMOND 12 3]
      = 10 := by
  refine ⟨by decide, by decide, by decide, by decide⟩

/-- **C10** (validateMelds on fewer than 3 selected cards): the query returns
the empty validation — no valid melds, every selected card invalid, score 0,
opening requirement unmet, 51 points still needed — and reports `hasOpened`
as `false` no matter what the player's actual opened flag is. -/
theorem C10_validateMelds_small (s : GameState) (p : Nat) (cards : List Card)
    (h : cards.length < 3) :
    (Remi.validateMelds s p cards).validMelds = [] ∧
    (Remi.validateMelds s p cards).invalidCards = cards ∧
    (Remi.validateMelds s p cards).totalScore = 0 ∧
    (Remi.validateMelds s p cards).meetsOpenRequirement = false ∧
    (Remi.validateMelds s p cards).minimumNeeded = 51 ∧
    (Remi.validateMelds s p cards).hasOpened = false := by
  simp [Remi.validateMelds, if_pos h, Remi.createEmptyValidation]

/-- A state whose only player has already opened, for the C10 witness. -/
def openedState : GameState :=
  { drawPile := [], discardPile := [],
    playerHands := [[mkCard Suit.HEART 5 1, mkCard Suit.DIAMOND 5 2]],
    playerMelds := [[]], playersHaveOpened := [true], currentPlayer := 0,
    phase := GamePhase.MELD, numPlayers := 1 }

/-- Witness for C10: with two selected cards, a player whose opened flag is
`true` is still reported as `hasOpened = false`. -/
theorem C10_validateMelds_small_witness :
    openedState.playersHaveOpened.getD 0 false = true ∧
    (Remi.validateMelds openedState 0
      [mkCard Suit.HEART 5 1, mkCard Suit.DIAMOND 5 2]).hasOpened = false :=
  ⟨by decide,
   (C10_validateMelds_small openedState 0
     [mkCard Suit.HEART 5 1, mkCard Suit.DIAMOND 5 2] (by decide)).2.2.2.2.2⟩


/-- `(l.set n a).getD n d = a` for an in-bounds index (the JS array write
`l[n] = a` followed by the read `l[n]`). -/
theorem getD_set_self {α : Type} (l : List α) (n : Nat) (a d : α) (h : n < l.length) :
    (l.set n a).getD n d = a := by
  induction l generalizing n with
  | nil => simp at h
  | cons x t ih =>
    cases n with
    | zero => rfl
    | succ m => exact ih m (by simpa using h)

/-- **C5** (Opening gate): a player who has not opened has `layDownMelds`
rejected whenever the melds score below 51, and accepted at exactly 51 when
the phase, the turn, card ownership and meld validity checks all pass — in
which case the melds are laid (appended, canonically sorted, to the player's
table melds) and the opened flag is set. -/
theorem C5_opening_gate (s : GameState) (p : Nat) (melds : List (List Card)) :
    (s.playersHaveOpened.getD p false = false →
      Remi.calculateTotalMeldScore melds < 51 →
      (Remi.layDownMelds s p melds).1 = false) ∧
    (s.phase = GamePhase.MELD →
      p = s.currentPlayer →
      p < s.playersHaveOpened.length →
      p < s.playerMelds.length →
      (melds.flatten.all fun c => Remi.handIncludes (s.playerHands.getD p []) c) = true →
      (melds.all fun m => Remi.isValidSet m || Remi.isValidRun m) = true →
      s.playersHaveOpened.getD p false = false →
      Remi.calculateTotalMeldScore melds = 51 →
      (Remi.layDownMelds s p melds).1 = true ∧
      (Remi.layDownMelds s p melds).2.playersHaveOpened.getD p false = true ∧
      (Remi.layDownMelds s p melds).2.playerMelds.getD p [] =
        s.playerMelds.getD p [] ++ melds.map Remi.sortMeldForDisplay) := by
  constructor
  · intro hop hlt
    simp only [Remi.layDownMelds]
    split_ifs with h1 h2 h3 h4 h5
    · rfl
    · rfl
    · rfl
    · rfl
    · rfl
    · exact absurd ⟨by rw [hop]; rfl, hlt⟩ h5
  · intro hphase hcur hlt1 hlt2 hin hvalid hop hscore
    simp only [Remi.layDownMelds]
    rw [if_neg (by simp [hphase]), if_neg (by simp [hcur]),
      if_neg (by rw [hin]; decide), if_neg (by rw [hvalid]; decide),
      if_neg (fun hc => absurd hc.2 (by omega))]
    refine ⟨rfl, ?_, ?_⟩
    · rw [hop]
      simp only [Bool.not_false, if_pos rfl]
      exact getD_set_self _ _ _ _ hlt1
    · exact getD_set_self _ _ _ _ hlt2

/-- A mid-turn state for the C5 witness: player 0, not yet opened, holding
three kings, a 6-7-8 club run and a spare card. -/
def c5State : GameState :=
  { drawPile := [mkCard Suit.HEART 4 99], discardPile := [],
    playerHands := [[mkCard Suit.HEART 13 1, mkCard Suit.DIAMOND 13 2,
                     mkCard Suit.SPADE 13 3, mkCard Suit.CLUB 6 4,
                     mkCard Suit.CLUB 7 5, mkCard Suit.CLUB 8 6,
                     mkCard Suit.HEART 2 7]],
    playerMelds := [[]], playersHaveOpened := [false], currentPlayer := 0,
    phase := GamePhase.MELD, numPlayers := 1 }

/-- The 51-point lay-down for the C5 witness: kings (30) plus 6-7-8 of clubs
(21). -/
def c5Melds : List (List Card) :=
  [[mkCard Suit.HEART 13 1, mkCard Suit.DIAMOND 13 2, mkCard Suit.SPADE 13 3],
   [mkCard Suit.CLUB 6 4, mkCard Suit.CLUB 7 5, mkCard Suit.CLUB 8 6]]

/-- Witness for C5: the run alone (21 < 51) is rejected for the unopened
player, while the full 51-point lay-down is accepted and sets the flag. -/
theorem C5_opening_gate_witness :
    (Remi.layDownMelds c5State 0
      [[mkCard Suit.CLUB 6 4, mkCard Suit.CLUB 7 5, mkCard Suit.CLUB 8 6]]).1 = false ∧
    (Remi.layDownMelds c5State 0 c5Melds).1 = true ∧
    (Remi.layDownMelds c5State 0 c5Melds).2.playersHaveOpened.getD 0 false = true :=
  ⟨(C5_opening_gate c5State 0 _).1 (by decide) (by decide),
   ((C5_opening_gate c5State 0 c5Melds).2 rfl rfl (by decide) (by decide)
     (by decide) (by decide) (by decide) (by decide)).1,
   ((C5_opening_gate c5State 0 c5Melds).2 rfl rfl (by decide) (by decide)
     (by decide) (by decide) (by decide) (by decide)).2.1⟩

/-- **C8** (Exhaustion-time reshuffle; exhaustion is failure, not a crash):
for a legal draw call with an empty draw pile, the whole discard pile — each
card flipped — becomes the new draw pile before the draw (afterwards its
first card, flipped once more, is in the player's hand and the rest is the
draw pile), and when the discard pile is empty too the call returns `false`
with the state unchanged. -/
theorem C8_draw_exhaustion (s : GameState) (p : Nat)
    (hphase : s.phase = GamePhase.DRAW)
    (hcur : p = s.currentPlayer)
    (hcap : (s.playerHands.getD p []).length < 15)
    (hplen : p < s.playerHands.length)
    (hempty : s.drawPile = []) :
    (s.discardPile = [] → Remi.drawCard s p = (false, s)) ∧
    (∀ d ds, s.discardPile = d :: ds →
      (Remi.drawCard s p).1 = true ∧
      (Remi.drawCard s p).2.drawPile = ds.map Card.flip ∧
      (Remi.drawCard s p).2.discardPile = [] ∧
      (Remi.drawCard s p).2.playerHands.getD p [] =
        s.playerHands.getD p [] ++ [d.flip.flip] ∧
      (Remi.drawCard s p).2.phase = GamePhase.MELD) := by
  obtain ⟨dp, disc, hands, pm, po, cp, ph, np⟩ := s
  simp only at hphase hcur hcap hplen hempty
  subst hphase hempty hcur
  have hcap2 : (hands[p]).length < 15 := by
    rw [List.getD_eq_getElem?_getD, List.getElem?_eq_getElem hplen] at hcap
    simpa using hcap
  have hnotcap : ¬(15 ≤ (hands[p]).length) := by omega
  constructor
  · intro hd
    subst hd
    simp [Remi.drawCard, Remi.shuffleDiscardIntoDeck, Remi.shuffleInDiscardPile,
      List.getD, List.getElem?_eq_getElem hplen, hnotcap]
  · intro d ds hd
    subst hd
    simp [Remi.drawCard, Remi.shuffleDiscardIntoDeck, Remi.shuffleInDiscardPile,
      hnotcap, List.getD, List.getElem?_set_self, hplen, List.getElem?_eq_getElem hplen]

/-- A legal draw situation with both piles empty (C8 witness, part one). -/
def c8EmptyState : GameState :=
  { drawPile := [], discardPile := [],
    playerHands := [[mkCard Suit.HEART 2 1]], playerMelds := [[]],
    playersHaveOpened := [false], currentPlayer := 0,
    phase := GamePhase.DRAW, numPlayers := 1 }

/-- A legal draw situation with an empty draw pile and a two-card discard
pile (C8 witness, part two). -/
def c8ReshuffleState : GameState :=
  { drawPile := [], discardPile := [mkCard Suit.HEART 7 2, mkCard Suit.SPADE 9 3],
    playerHands := [[mkCard Suit.HEART 2 1]], playerMelds := [[]],
    playersHaveOpened := [false], currentPlayer := 0,
    phase := GamePhase.DRAW, numPlayers := 1 }

/-- Witness for C8: with both piles empty the draw fails and the state is
untouched; with a discard pile present it is flipped into the draw pile and
the draw succeeds. -/
theorem C8_draw_exhaustion_witness :
    Remi.drawCard c8EmptyState 0 = (false, c8EmptyState) ∧
    (Remi.drawCard c8ReshuffleState 0).1 = true ∧
    (Remi.drawCard c8ReshuffleState 0).2.drawPile = [(mkCard Suit.SPADE 9 3).flip] ∧
    (Remi.drawCard c8ReshuffleState 0).2.discardPile = [] :=
  ⟨(C8_draw_exhaustion c8EmptyState 0 rfl rfl (by decide) (by decide) rfl).1 rfl,
   ((C8_draw_exhaustion c8ReshuffleState 0 rfl rfl (by decide) (by decide) rfl).2
     (mkCard Suit.HEART 7 2) [mkCard Suit.SPADE 9 3] rfl).1,
   ((C8_draw_exhaustion c8ReshuffleState 0 rfl rfl (by decide) (by decide) rfl).2
     (mkCard Suit.HEART 7 2) [mkCard Suit.SPADE 9 3] rfl).2.1,
   ((C8_draw_exhaustion c8ReshuffleState 0 rfl rfl (by decide) (by decide) rfl).2
     (mkCard Suit.HEART 7 2) [mkCard Suit.SPADE 9 3] rfl).2.2.1⟩

/-- The joker completing the four-card 5-set on the table (C7). -/
def c7Joker : Card := mkCard Suit.JOKER_RED 14 20

/-- A four-card set `[5♥, 5♦, 5♠, Joker]` lying on the table, owned by
player 1 (C7). -/
def c7Meld : List Card := [mkCard Suit.HEART 5 21, mkCard Suit.DIAMOND 5 22,
  mkCard Suit.SPADE 5 23, c7Joker]

/-- The 5♣ that legally completes the set in the joker's slot (C7). -/
def c7Card : Card := mkCard Suit.CLUB 5 24

/-- Acting player 0 (opened, current, phase MELD) holds the 5♣; the meld
belongs to player 1 (C7). -/
def c7State : GameState :=
  { drawPile := [], discardPile := [],
    playerHands := [[c7Card, mkCard Suit.HEART 9 25], [mkCard Suit.SPADE 2 26]],
    playerMelds := [[], [c7Meld]],
    playersHaveOpened := [true, true], currentPlayer := 0,
    phase := GamePhase.MELD, numPlayers := 2 }

/-- **C7** (Joker reclaim from a 4-card set — code bug): the table meld is a
valid 4-card set whose fourth slot is a joker, and the engine's own
replacement predicate `#doesCardReplaceJoker` accepts the 5♣ for that slot;
yet `addCardToMeld` returns `false` and leaves the state unchanged, because
its up-front check validates the 5-card extended meld `meld ++ [card]`,
which can never be a valid set (length 5) nor a valid run (four equal-rank
cards of distinct suits).  The claimed reclaim — joker back to the acting
player's hand, card in its slot, `true` returned — never happens. -/
theorem C7_joker_reclaim_code_bug :
    Remi.isValidSet c7Meld = true ∧
    Remi.doesCardReplaceJoker c7Card c7Joker c7Meld = true ∧
    Remi.isValidSet (c7Meld ++ [c7Card]) = false ∧
    Remi.isValidRun (c7Meld ++ [c7Card]) = false ∧
    Remi.addCardToMeld c7State 0 c7Card 1 0 = (false, c7State) := by
  refine ⟨by decide, by decide, by decide, by decide, by decide⟩

/-- Suit at a given index of `Object.values(CARD_SUIT)` (from `common.ts`). -/
def suitOfIndex : Nat → Suit
  | 0 => Suit.HEART
  | 1 => Suit.DIAMOND
  | 2 => Suit.SPADE
  | 3 => Suit.CLUB
  | 4 => Suit.JOKER_RED
  | _ => Suit.JOKER_BLACK

/-- One pass of `Deck.#createDeck`: the four ordinary suits with values 1–13,
then a `JOKER_BLACK` and a `JOKER_RED` of value 14, all face down.  Ids are
assigned sequentially from `base` (the source draws random string ids; only
their distinctness matters). -/
def singleDeck (base : Nat) : List Card :=
  ((List.range 4).foldl (fun acc i =>
    acc ++ (List.range 13).map
      (fun j => ⟨suitOfIndex i, (j : Int) + 1, false, base + i * 13 + j⟩)) [])
  ++ [⟨Suit.JOKER_BLACK, 14, false, base + 52⟩, ⟨Suit.JOKER_RED, 14, false, base + 53⟩]

/-- The 108-card pool of `new Deck(2)`. -/
def doubleDeckCards : List Card := singleDeck 0 ++ singleDeck 54

/-- All cards in play: draw pile, discard pile, every hand, every table
meld — the locations of the conservation invariant. -/
def allCards (s : GameState) : List Card :=
  s.drawPile ++ s.discardPile ++ s.playerHands.flatten ++ s.playerMelds.flatten.flatten

/-- Alternating interleaving (deal order of `newGame`: player 0, player 1,
player 0, …). -/
def interleave {α : Type} : List α → List α → List α
  | [], ys => ys
  | x :: xs, [] => x :: xs
  | x :: xs, y :: ys => x :: y :: interleave xs ys

/-- The ids of the five kings player 0 is arranged to receive: K♥ K♦ K♠ K♣
from the first deck and the second deck's K♦. -/
def c1KingIds : List Nat := [12, 25, 38, 51, 79]

/-- A possible `Math.random` shuffle outcome of the 108-card pool: the five
kings and nine fillers go to player 0, fourteen fillers to player 1, the
rest forms the remaining draw pile.  By construction it is a permutation of
`doubleDeckCards`. -/
def c1ShuffledDeck : List Card :=
  let kings := doubleDeckCards.filter (fun c => c.id ∈ c1KingIds)
  let others := doubleDeckCards.filter (fun c => c.id ∉ c1KingIds)
  interleave (kings ++ others.take 9) ((others.drop 9).take 14) ++ (others.drop 23)

/-- The overlapping lay-down: two valid king sets that share the *same*
physical K♥ card (id 12). -/
def c1Melds : List (List Card) :=
  [[⟨Suit.HEART, 13, true, 12⟩, ⟨Suit.DIAMOND, 13, true, 25⟩, ⟨Suit.SPADE, 13, true, 38⟩],
   [⟨Suit.HEART, 13, true, 12⟩, ⟨Suit.CLUB, 13, true, 51⟩, ⟨Suit.DIAMOND, 13, true, 79⟩]]

/-- Game start from the arranged shuffle. -/
def c1S0 : GameState := Remi.newGame c1ShuffledDeck 2

/-- After player 0's draw. -/
def c1S1 : GameState := (Remi.drawCard c1S0 0).2

/-- After the overlapping lay-down. -/
def c1S2 : GameState := (Remi.layDownMelds c1S1 0 c1Melds).2

/-- The 9-card hand refuting solver optimality: four 9s, the 2-3-4-5 of
clubs, and a joker.  Its unique maximum-score partition is the 9-set (36)
plus the club run extended by the joker (20), total 56, leaving no card. -/
def c6Hand : List Card :=
  [mkCard Suit.HEART 9 1, mkCard Suit.DIAMOND 9 2, mkCard Suit.SPADE 9 3,
   mkCard Suit.CLUB 9 4, mkCard Suit.CLUB 2 5, mkCard Suit.CLUB 3 6,
   mkCard Suit.CLUB 4 7, mkCard Suit.CLUB 5 8, mkCard Suit.JOKER_RED 14 9]

/-- Engine state holding the counterexample hand (the solver consults the
engine only through `validateMelds`). -/
def c6State : GameState :=
  { drawPile := [], discardPile := [], playerHands := [c6Hand],
    playerMelds := [[]], playersHaveOpened := [false], currentPlayer := 0,
    phase := GamePhase.MELD, numPlayers := 1 }

/-- The four-nine set of the optimal partition of `c6Hand`. -/
def c6Set : List Card :=
  [mkCard Suit.HEART 9 1, mkCard Suit.DIAMOND 9 2, mkCard Suit.SPADE 9 3,
   mkCard Suit.CLUB 9 4]

/-- The joker-extended club run of the optimal partition of `c6Hand`. -/
def c6Run : List Card :=
  [mkCard Suit.CLUB 2 5, mkCard Suit.CLUB 3 6, mkCard Suit.CLUB 4 7,
   mkCard Suit.CLUB 5 8, mkCard Suit.JOKER_RED 14 9]


/-! ## Lemmas for the discard-safety analysis (C9) -/

/-- Removing the first card with a given id removes exactly that id from the
id multiset. -/
theorem removeFirstById_map_id (l : List Card) (c : Card) :
    (Remi.removeFirstById l c).map (·.id) = (l.map (·.id)).erase c.id := by
  induction l with
  | nil => rfl
  | cons a t ih =>
    by_cases h : a.id = c.id
    · simp [Remi.removeFirstById, h, List.erase_cons]
    · simp [Remi.removeFirstById, h, List.erase_cons, ih]

/-- `canMakeMeld` takes the meld's ids, with multiplicity, from the available
cards; removing them leaves the complementary id multiset. -/
theorem canMakeMeld_perm (m : List Card) : ∀ avail : List Card,
    AIPlayer.canMakeMeld m avail = true →
    (m.map (·.id) ++ (AIPlayer.removeCards avail m).map (·.id)).Perm
      (avail.map (·.id)) := by
  induction m with
  | nil => intro avail _; simp [AIPlayer.removeCards]
  | cons c cs ih =>
    intro avail h
    rw [AIPlayer.canMakeMeld] at h
    split_ifs at h with hmem
    have hin : c.id ∈ avail.map (·.id) := by
      simp only [List.any_eq_true, decide_eq_true_eq] at hmem
      obtain ⟨a, ha, hid⟩ := hmem
      exact List.mem_map.mpr ⟨a, ha, hid⟩
    have hrest := ih (Remi.removeFirstById avail c) h
    have hrc : AIPlayer.removeCards avail (c :: cs) =
        AIPlayer.removeCards (Remi.removeFirstById avail c) cs := rfl
    rw [hrc]
    refine (hrest.cons c.id).trans ?_
    rw [removeFirstById_map_id]
    exact (List.perm_cons_erase hin).symm

/-- One insertion step of `jsSort` permutes. -/
theorem jsSort_insertCmp_perm {α : Type} (cmp : α → α → Int) (x : α) (l : List α) :
    (jsSort.insertCmp cmp x l).Perm (x :: l) := by
  induction l with
  | nil => rfl
  | cons y ys ih =>
    rw [jsSort.insertCmp]
    split_ifs with h
    · rfl
    · exact (ih.cons y).trans (List.Perm.swap x y ys)

/-- `jsSort` returns a permutation of its input. -/
theorem jsSort_perm {α : Type} (cmp : α → α → Int) (l : List α) :
    (jsSort cmp l).Perm l := by
  suffices h : ∀ acc : List α,
      (l.foldl (fun acc x => jsSort.insertCmp cmp x acc) acc).Perm (acc ++ l) by
    simpa using h []
  induction l with
  | nil => simp
  | cons x xs ih =>
    intro acc
    refine (ih (jsSort.insertCmp cmp x acc)).trans ?_
    refine ((jsSort_insertCmp_perm cmp x acc).append_right xs).trans ?_
    simpa using List.perm_middle.symm

/-- Prepending a `take`/continuing with the matching `drop` preserves the
interleaving permutation. -/
theorem interleave_take_drop_perm (hh : Bool) (xs jokers : List Card) (k : Nat)
    (h : ∀ js : List Card, (AIPlayer.interleaveJokersAI hh xs js).Perm (xs ++ js)) :
    (jokers.take k ++ AIPlayer.interleaveJokersAI hh xs (jokers.drop k)).Perm
      (xs ++ jokers) := by
  refine ((h (jokers.drop k)).append_left (jokers.take k)).trans ?_
  rw [← List.append_assoc]
  refine (List.perm_append_comm.append_right (jokers.drop k)).trans ?_
  rw [List.append_assoc, List.take_append_drop]

/-- The joker interleaving permutes its two inputs. -/
theorem interleaveJokersAI_perm (hh : Bool) (regs : List Card) :
    ∀ jokers : List Card,
      (AIPlayer.interleaveJokersAI hh regs jokers).Perm (regs ++ jokers) := by
  induction regs with
  | nil => intro jokers; simp [AIPlayer.interleaveJokersAI]
  | cons r rest ih =>
    intro jokers
    cases rest with
    | nil => simp [AIPlayer.interleaveJokersAI]
    | cons r₂ rest' =>
      rw [AIPlayer.interleaveJokersAI]
      exact List.Perm.cons r (interleave_take_drop_perm hh (r₂ :: rest') jokers _ ih)

/-- `orderCardsInMeldAdvanced` permutes the meld's cards. -/
theorem orderCardsInMeldAdvanced_perm (m : List Card) :
    (AIPlayer.orderCardsInMeldAdvanced m).Perm m := by
  rw [AIPlayer.orderCardsInMeldAdvanced]
  by_cases h1 : (!AIPlayer.isValidRun m) = true
  · rw [if_pos h1]
    exact jsSort_perm _ _
  · rw [if_neg h1]
    dsimp only
    split_ifs with h2
    · exact List.Perm.refl m
    · refine (interleaveJokersAI_perm _ _ _).trans ?_
      refine ((jsSort_perm _ _).append_right _).trans ?_
      have hfp := List.filter_append_perm (fun c => !AIPlayer.isJoker c) m
      simpa using hfp

/-- Partition invariant of the backtracking search: the returned solution
extends the chosen melds with candidate melds, and together with the
remaining cards they account (by id, with multiplicity) for exactly the
available cards. -/
theorem findBestCombinationAdvanced_spec (fuel : Nat) :
    ∀ (cands : List AIPlayer.MeldCandidate) (avail : List Card)
      (chosen : List (List Card)) (score depth : Nat),
      ∃ extra : List (List Card),
        (AIPlayer.findBestCombinationAdvanced fuel cands avail chosen score depth).melds
          = chosen ++ extra ∧
        (∀ m ∈ extra, m ∈ cands.map (·.cards)) ∧
        (extra.flatten.map (·.id) ++
          ((AIPlayer.findBestCombinationAdvanced fuel cands avail chosen score
            depth).remainingCards.map (·.id))).Perm (avail.map (·.id)) := by
  induction fuel with
  | zero =>
    intro cands avail chosen score depth
    exact ⟨[], by simp [AIPlayer.findBestCombinationAdvanced, AIPlayer.stopSolution],
      by simp, by simp [AIPlayer.findBestCombinationAdvanced, AIPlayer.stopSolution]⟩
  | succ f ih =>
    intro cands avail chosen score depth
    rw [AIPlayer.findBestCombinationAdvanced]
    split_ifs with hdepth
    · exact ⟨[], by simp [AIPlayer.stopSolution], by simp, by simp [AIPlayer.stopSolution]⟩
    · refine @List.foldlRecOn _ _
        (fun (sol : AIPlayer.HandSolution) => ∃ extra : List (List Card),
          sol.melds = chosen ++ extra ∧
          (∀ m ∈ extra, m ∈ cands.map (·.cards)) ∧
          (extra.flatten.map (·.id) ++ sol.remainingCards.map (·.id)).Perm
            (avail.map (·.id)))
        (List.range cands.length) _ _ ?_ ?_
      · exact ⟨[], by simp [AIPlayer.stopSolution], by simp, by simp [AIPlayer.stopSolution]⟩
      · rintro best ⟨extra, hmelds, hmem, hperm⟩ i hi
        cases hget : cands.get? i with
        | none => simp only [hget]; exact ⟨extra, hmelds, hmem, hperm⟩
        | some c =>
          simp only [hget]
          by_cases hcan : AIPlayer.canMakeMeld c.cards avail = true
          · simp only [hcan, if_true]
            obtain ⟨extra', hmelds', hmem', hperm'⟩ :=
              ih (cands.drop (i + 1)) (AIPlayer.removeCards avail c.cards)
                (chosen ++ [c.cards]) (score + c.score) (depth + 1)
            by_cases hbetter : AIPlayer.isBetterSolution
                (AIPlayer.findBestCombinationAdvanced f (cands.drop (i + 1))
                  (AIPlayer.removeCards avail c.cards) (chosen ++ [c.cards])
                  (score + c.score) (depth + 1)) best = true
            · simp only [hbetter, if_true]
              refine ⟨[c.cards] ++ extra', by rw [hmelds', List.append_assoc], ?_, ?_⟩
              · intro m hm
                rcases List.mem_append.mp hm with hm | hm
                · rcases List.mem_singleton.mp hm with rfl
                  exact List.mem_map.mpr ⟨c, List.get?_mem hget, rfl⟩
                · obtain ⟨c', hc', rfl⟩ := List.mem_map.mp (hmem' m hm)
                  exact List.mem_map.mpr ⟨c', List.drop_subset _ _ hc', rfl⟩
              · have h1 : (([c.cards] ++ extra').flatten.map (·.id)) =
                    c.cards.map (·.id) ++ extra'.flatten.map (·.id) := by
                  simp
                rw [h1, List.append_assoc]
                refine (hperm'.append_left (c.cards.map (·.id))).trans ?_
                exact canMakeMeld_perm c.cards avail hcan
            · simp only [hbetter, if_false]
              exact ⟨extra, hmelds, hmem, hperm⟩
          · simp only [Bool.not_eq_true] at hcan
            simp only [hcan]
            exact ⟨extra, hmelds, hmem, hperm⟩

/-- A successful split returned by `findSplit.go` has a nonempty meld
candidate, and its remainder melds are the recursive split of the absolute
remainder, which is nonempty. -/
theorem findSplit_go_some (splitRec : List Card → List (List Card)) (cards : List Card)
    (i : Nat) (group : List Card) :
    ∀ (k sp : Nat), 1 ≤ sp →
      ∀ res, Remi.findSplit.go splitRec cards i group k sp = some res →
        res.1 ≠ [] ∧ res.2.1 = splitRec (cards.drop res.2.2) ∧ res.2.1 ≠ [] := by
  intro k
  induction k with
  | zero => intro sp hsp res hres; exact absurd hres (by simp [Remi.findSplit.go])
  | succ k ihk =>
    intro sp hsp res hres
    rw [Remi.findSplit.go] at hres
    by_cases h1 : sp + 3 ≤ group.length
    · rw [if_pos h1] at hres
      dsimp only at hres
      split_ifs at hres with h2 h3
      · injection hres with hres
        subst hres
        refine ⟨?_, rfl, ?_⟩
        · intro htake
          have hlt := congrArg List.length htake
          rw [List.length_take] at hlt
          simp [Nat.min_def] at hlt
          split_ifs at hlt <;> omega
        · intro hnil
          apply h3
          rw [show splitRec (List.drop (i + sp) cards) = [] from hnil]
          rfl
      · exact ihk (sp + 1) (by omega) res hres
      · exact ihk (sp + 1) (by omega) res hres
    · rw [if_neg h1] at hres
      exact absurd hres (by simp)

/-- Every meld group produced by `splitLoop` (beyond the accumulator) is
nonempty. -/
theorem splitLoop_ne_nil :
    ∀ (f : Nat) (cards : List Card) (i : Nat) (acc : List (List Card)),
      (∀ m ∈ acc, m ≠ []) → ∀ m ∈ Remi.splitLoop f cards i acc, m ≠ [] := by
  intro f
  induction f with
  | zero =>
    intro cards i acc hacc m hm
    exact hacc m hm
  | succ f ih =>
    intro cards i acc hacc m hm
    rw [Remi.splitLoop] at hm
    split_ifs at hm with hi
    · by_cases hlen : 6 ≤ (Remi.greedyGroup cards i).length
      · simp only [hlen, if_true] at hm
        cases hbs : Remi.findSplit
            (fun rem => if rem.length < 3 then [] else Remi.splitLoop f rem 0 [])
            cards i (Remi.greedyGroup cards i) with
        | none =>
          simp only [hbs] at hm
          split_ifs at hm with hg
          · exact ih cards _ _ (fun m' hm' => by
              rcases List.mem_append.mp hm' with h | h
              · exact hacc m' h
              · rcases List.mem_singleton.mp h with rfl
                intro hnil
                rw [hnil] at hg
                exact absurd hg (by simp)) m hm
          · exact ih cards _ _ hacc m hm
        | some res =>
          obtain ⟨cand, remMelds, remStart⟩ := res
          have hspec := findSplit_go_some
            (fun rem => if rem.length < 3 then [] else Remi.splitLoop f rem 0 [])
            cards i (Remi.greedyGroup cards i) (Remi.greedyGroup cards i).length 3
            (by omega) (cand, remMelds, remStart) hbs
          simp only [hbs] at hm
          refine ih cards _ _ ?_ m hm
          intro m' hm'
          rcases List.mem_append.mp hm' with h | h
          · rcases List.mem_append.mp h with h | h
            · exact hacc m' h
            · rcases List.mem_singleton.mp h with rfl
              exact hspec.1
          · have hrm : remMelds =
                (if (cards.drop remStart).length < 3 then []
                 else Remi.splitLoop f (cards.drop remStart) 0 []) := hspec.2.1
            rw [hrm] at h
            split_ifs at h with hsmall
            · exact absurd h (by simp)
            · exact ih (cards.drop remStart) 0 [] (by simp) m' h
      · simp only [hlen, if_false] at hm
        split_ifs at hm with hg
        · refine ih cards _ _ ?_ m hm
          intro m' hm'
          rcases List.mem_append.mp hm' with h | h
          · exact hacc m' h
          · rcases List.mem_singleton.mp h with rfl
            intro hnil
            rw [hnil] at hg
            exact absurd hg (by simp)
        · exact ih cards _ _ hacc m hm
    · exact hacc m hm

/-- Every meld group produced by `#splitIntoMeldGroups` is nonempty. -/
theorem splitIntoMeldGroups_ne_nil (cards : List Card) :
    ∀ m ∈ Remi.splitIntoMeldGroups cards, m ≠ [] := by
  intro m hm
  rw [Remi.splitIntoMeldGroups] at hm
  split_ifs at hm
  · exact absurd hm (by simp)
  · exact splitLoop_ne_nil _ cards 0 [] (by simp) m hm

/-- In-bounds `getD` is a member. -/
theorem getD_mem {α : Type} (l : List α) (n : Nat) (d : α) (h : n < l.length) :
    l.getD n d ∈ l := by
  rw [List.getD_eq_getElem?_getD, List.getElem?_eq_getElem h]
  exact List.getElem_mem h

/-- Every meld group reported by `validateMelds` is nonempty. -/
theorem validateMelds_validMelds_ne_nil (s : GameState) (p : Nat) (sel : List Card) :
    ∀ m ∈ (Remi.validateMelds s p sel).validMelds, m ≠ [] := by
  intro m hm
  rw [Remi.validateMelds] at hm
  split_ifs at hm with h
  · exact absurd hm (by simp [Remi.createEmptyValidation])
  · dsimp only at hm
    exact splitIntoMeldGroups_ne_nil sel m hm

/-- Foldl over an accumulating function preserves a membership property. -/
theorem foldl_append_prop {α β : Type} (P : β → Prop) (l : List α)
    (g : List β → α → List β) (init : List β)
    (hinit : ∀ x ∈ init, P x)
    (hstep : ∀ acc a, a ∈ l → (∀ x ∈ acc, P x) → ∀ x ∈ g acc a, P x) :
    ∀ x ∈ l.foldl g init, P x := by
  refine @List.foldlRecOn _ _ (fun acc => ∀ x ∈ acc, P x) l g init hinit ?_
  intro b hb a ha
  exact hstep b a ha hb

/-- `deduplicateCandidates.go` only keeps elements of its input. -/
theorem deduplicateCandidates_go_subset :
    ∀ (l : List AIPlayer.MeldCandidate) (seen : List (List Nat))
      (c : AIPlayer.MeldCandidate),
      c ∈ AIPlayer.deduplicateCandidates.go l seen → c ∈ l := by
  intro l
  induction l with
  | nil =>
    intro seen c hc
    simp [AIPlayer.deduplicateCandidates.go] at hc
  | cons x xs ih =>
    intro seen c hc
    rw [AIPlayer.deduplicateCandidates.go] at hc
    split_ifs at hc with h
    · exact List.mem_cons_of_mem x (ih _ c hc)
    · rcases List.mem_cons.mp hc with rfl | hc
      · exact List.mem_cons_self c xs
      · exact List.mem_cons_of_mem x (ih _ c hc)

/-- Every candidate collected by `findAllValidCandidates` has a nonempty
card list. -/
theorem findAllValidCandidates_cards_ne_nil (s : GameState) (p : Nat)
    (hand : List Card) :
    ∀ c ∈ AIPlayer.findAllValidCandidates s p hand, c.cards ≠ [] := by
  intro c hc
  rw [AIPlayer.findAllValidCandidates] at hc
  dsimp only at hc
  have hc2 := deduplicateCandidates_go_subset _ _ c hc
  refine foldl_append_prop (fun cd => cd.cards ≠ []) _ _ _ (by simp) ?_ c hc2
  intro acc size hsize hacc
  refine foldl_append_prop _ _ _ _ hacc ?_
  intro acc2 combo hcombo hacc2
  intro x hx
  rcases List.mem_append.mp hx with h | h
  · exact hacc2 x h
  · refine foldl_append_prop (fun cd => cd.cards ≠ []) _ _ _ (by simp) ?_ x h
    intro acc3 i hi hacc3 y hy
    rcases List.mem_append.mp hy with h2 | h2
    · exact hacc3 y h2
    · rcases List.mem_singleton.mp h2 with rfl
      have hlen : i < (Remi.validateMelds s p combo).validMelds.length :=
        List.mem_range.mp hi
      exact validateMelds_validMelds_ne_nil s p combo _ (getD_mem _ _ _ hlen)

/-- The hand solver's output partitions the hand by card identity: the laid
melds plus the remaining cards are exactly the hand (as id multisets), and
every meld is nonempty. -/
theorem solveHandWithValidation_spec (s : GameState) (p : Nat) (hand : List Card) :
    ((AIPlayer.solveHandWithValidation s p hand).melds.flatten.map (·.id) ++
      (AIPlayer.solveHandWithValidation s p hand).remainingCards.map (·.id)).Perm
      (hand.map (·.id)) ∧
    ∀ m ∈ (AIPlayer.solveHandWithValidation s p hand).melds, m ≠ [] := by
  rw [AIPlayer.solveHandWithValidation]
  dsimp only
  obtain ⟨extra, hmelds, hmem, hperm⟩ :=
    findBestCombinationAdvanced_spec
      ((jsSort AIPlayer.candidateCmp (AIPlayer.findAllValidCandidates s p hand)).length + 1)
      (jsSort AIPlayer.candidateCmp (AIPlayer.findAllValidCandidates s p hand))
      hand [] 0 0
  constructor
  · rw [hmelds]
    simpa using hperm
  · intro m hm
    rw [hmelds] at hm
    simp only [List.nil_append] at hm
    obtain ⟨cand, hcand, rfl⟩ := List.mem_map.mp (hmem m hm)
    have hcand' := (jsSort_perm AIPlayer.candidateCmp _).mem_iff.mp hcand
    exact findAllValidCandidates_cards_ne_nil s p hand cand hcand'

/-- Every difficulty branch lays down a selection (in order) of the solver's
melds. -/
theorem selectMeldsToLay_sublist (d : AIDifficulty) (hand : List Card)
    (ho : Bool) (sol : AIPlayer.HandSolution) :
    (AIPlayer.selectMeldsToLay d hand ho sol).Sublist sol.melds := by
  rw [AIPlayer.selectMeldsToLay]
  split_ifs <;> (try dsimp only) <;> (try split_ifs) <;>
    first
      | exact List.Sublist.refl _
      | exact List.nil_sublist _
      | exact List.filter_sublist _
      | exact List.take_sublist _ _

/-- A sublist of a list of lists flattens to a sublist. -/
theorem sublist_flatten {α : Type} {l₁ l₂ : List (List α)} (h : l₁.Sublist l₂) :
    l₁.flatten.Sublist l₂.flatten := by
  induction h with
  | slnil => exact List.Sublist.refl _
  | cons a h ih =>
    rw [List.flatten_cons]
    exact ih.trans (List.sublist_append_right a _)
  | cons₂ a h ih =>
    rw [List.flatten_cons, List.flatten_cons]
    exact ih.append_left a

/-- Canonically ordering each meld permutes the flattened card list. -/
theorem flatten_map_orderCards_perm (l : List (List Card)) :
    ((l.map AIPlayer.orderCardsInMeldAdvanced).flatten).Perm l.flatten := by
  induction l with
  | nil => exact List.Perm.refl _
  | cons m rest ih =>
    simp only [List.map_cons, List.flatten_cons]
    exact (orderCardsInMeldAdvanced_perm m).append ih

/-- Indices in `enumFrom m l` are at least `m`. -/
theorem enumFrom_fst_ge {α : Type} (m : Nat) (l : List α) :
    ∀ p ∈ l.enumFrom m, m ≤ p.1 := by
  induction l generalizing m with
  | nil => intro p hp; simp at hp
  | cons x t ih =>
    intro p hp
    rw [List.enumFrom_cons] at hp
    rcases List.mem_cons.mp hp with rfl | hp
    · exact Nat.le_refl m
    · exact Nat.le_of_succ_le (ih (m + 1) p hp)

/-- Filtering index `m + i` out of `enumFrom m` and projecting is `eraseIdx i`
(the source's `filter((_, idx) => idx !== removedIndex)` idiom). -/
theorem enumFrom_filter_ne_eraseIdx {α : Type} (l : List α) :
    ∀ (m i : Nat),
      (((l.enumFrom m).filter (fun p => p.1 ≠ m + i)).map (·.2)) = l.eraseIdx i := by
  induction l with
  | nil => intro m i; rfl
  | cons x t ih =>
    intro m i
    rw [List.enumFrom_cons]
    cases i with
    | zero =>
      rw [List.filter_cons]
      have hx0 : (decide ((m, x).1 ≠ m + 0)) = false :=
        decide_eq_false (fun h => h (Nat.add_zero m).symm)
      rw [hx0, if_neg Bool.false_ne_true]
      have hkeep : (t.enumFrom (m + 1)).filter (fun p => p.1 ≠ m + 0) = t.enumFrom (m + 1) := by
        apply List.filter_eq_self.mpr
        intro p hp
        have := enumFrom_fst_ge (m + 1) t p hp
        simp only [ne_eq, decide_eq_true_eq]
        omega
      rw [hkeep, List.eraseIdx_zero]
      have hsnd := List.enumFrom_map_snd (m + 1) t
      simp only [List.tail_cons]
      exact hsnd
    | succ j =>
      rw [List.filter_cons]
      have hx : (decide ((m, x).1 ≠ m + (j + 1))) = true := by
        simp only [decide_eq_true_eq]
        omega
      rw [hx, if_pos rfl]
      simp only [List.map_cons, List.eraseIdx_cons_succ]
      congr 1
      have heq : (fun p : Nat × α => decide (p.1 ≠ m + (j + 1))) =
          (fun p : Nat × α => decide (p.1 ≠ (m + 1) + j)) := by
        funext p
        congr 1
        simp only [eq_iff_iff]
        omega
      rw [heq]
      exact ih (m + 1) j

/-- Holding back the meld at a valid index frees its (nonempty, disjoint)
cards: some hand card no longer appears in any laid meld. -/
theorem eraseIdx_leftover (hand : List Card) (ordered : List (List Card)) (i₀ : Nat)
    (m₀ : List Card) (hm₀ : ordered.get? i₀ = some m₀) (hm₀ne : m₀ ≠ [])
    (hnodup : (ordered.flatten.map (·.id)).Nodup)
    (hsub : ∀ x ∈ ordered.flatten.map (·.id), x ∈ hand.map (·.id)) :
    hand.filter (fun c =>
      !(((ordered.enum.filter (fun p => p.1 ≠ i₀)).map (·.2)).flatten.any
        (fun mc => mc.id = c.id))) ≠ [] := by
  have hR : ((ordered.enum.filter (fun p => p.1 ≠ i₀)).map (·.2)) =
      ordered.eraseIdx i₀ := by
    have h := enumFrom_filter_ne_eraseIdx ordered 0 i₀
    simpa [List.enum] using h
  rw [hR]
  obtain ⟨hidx, hget⟩ := List.get?_eq_some.mp hm₀
  have hdrop : ordered.drop i₀ = m₀ :: ordered.drop (i₀ + 1) := by
    rw [List.drop_eq_getElem_cons hidx]
    congr 1
  have hdecomp : ordered = ordered.take i₀ ++ m₀ :: ordered.drop (i₀ + 1) := by
    conv_lhs => rw [← List.take_append_drop i₀ ordered]
    rw [hdrop]
  have herase : ordered.eraseIdx i₀ = ordered.take i₀ ++ ordered.drop (i₀ + 1) :=
    List.eraseIdx_eq_take_drop_succ ordered i₀
  obtain ⟨c₀, hc₀⟩ : ∃ c, c ∈ m₀ := by
    cases m₀ with
    | nil => exact absurd rfl hm₀ne
    | cons a t => exact ⟨a, List.mem_cons_self a t⟩
  have hc₀flat : c₀ ∈ ordered.flatten :=
    List.mem_flatten.mpr ⟨m₀, List.get?_mem hm₀, hc₀⟩
  obtain ⟨hc, hhc, hhcid⟩ :=
    List.mem_map.mp (hsub _ (List.mem_map.mpr ⟨c₀, hc₀flat, rfl⟩))
  refine List.ne_nil_of_mem (a := hc) (List.mem_filter.mpr ⟨hhc, ?_⟩)
  rw [Bool.not_eq_true', List.any_eq_false]
  intro mc hmc
  simp only [decide_eq_true_eq]
  intro hmcid
  have hmcid₀ : mc.id = c₀.id := by rw [hmcid, hhcid]
  -- split the flattened ids as A ++ (B ++ C) around the removed meld
  rw [hdecomp] at hnodup
  rw [List.flatten_append, List.flatten_cons, List.map_append, List.map_append]
    at hnodup
  have hcB : c₀.id ∈ m₀.map (·.id) := List.mem_map.mpr ⟨c₀, hc₀, rfl⟩
  rw [herase] at hmc
  rw [List.flatten_append] at hmc
  rcases List.mem_append.mp hmc with hA | hC
  · have hdisj := List.disjoint_of_nodup_append hnodup
    exact hdisj (List.mem_map.mpr ⟨mc, hA, hmcid₀⟩)
      (List.mem_append.mpr (Or.inl hcB))
  · have hnodupBC := hnodup.of_append_right
    have hdisj := List.disjoint_of_nodup_append hnodupBC
    exact hdisj hcB (List.mem_map.mpr ⟨mc, hC, hmcid₀.symm ▸ rfl⟩)

/-- Step 3.1 works: whenever the hand is nonempty and the ordered melds are
nonempty, pairwise id-disjoint and drawn from the hand, some hand card
remains outside the melds returned by `ensureDiscardable`. -/
theorem ensureDiscardable_leftover (hand : List Card) (ordered : List (List Card))
    (hhand : hand ≠ [])
    (hne : ∀ m ∈ ordered, m ≠ [])
    (hnodup : (ordered.flatten.map (·.id)).Nodup)
    (hsub : ∀ x ∈ ordered.flatten.map (·.id), x ∈ hand.map (·.id)) :
    hand.filter (fun c =>
      !((AIPlayer.ensureDiscardable hand ordered).flatten.any
        (fun mc => mc.id = c.id))) ≠ [] := by
  rw [AIPlayer.ensureDiscardable]
  dsimp only
  split_ifs with hcond
  · obtain ⟨hlen0, hord⟩ := hcond
    have hperm := jsSort_perm
      (fun a b : Nat × Nat × Nat =>
        if a.2.1 ≠ b.2.1 then (a.2.1 : Int) - (b.2.1 : Int)
        else (a.2.2 : Int) - (b.2.2 : Int))
      (ordered.enum.map (fun p => (p.1, AIPlayer.calcScore p.2, p.2.length)))
    have hlen := hperm.length_eq
    have hne2 : jsSort
        (fun a b : Nat × Nat × Nat =>
          if a.2.1 ≠ b.2.1 then (a.2.1 : Int) - (b.2.1 : Int)
          else (a.2.2 : Int) - (b.2.2 : Int))
        (ordered.enum.map (fun p => (p.1, AIPlayer.calcScore p.2, p.2.length))) ≠ [] := by
      intro h
      rw [h] at hlen
      simp at hlen
      exact hord (by simp [hlen])
    obtain ⟨e, t, hs⟩ := List.exists_cons_of_ne_nil hne2
    rw [hs]
    simp only [List.headD_cons]
    have he : e ∈ jsSort
        (fun a b : Nat × Nat × Nat =>
          if a.2.1 ≠ b.2.1 then (a.2.1 : Int) - (b.2.1 : Int)
          else (a.2.2 : Int) - (b.2.2 : Int))
        (ordered.enum.map (fun p => (p.1, AIPlayer.calcScore p.2, p.2.length))) := by
      rw [hs]
      exact List.mem_cons_self e t
    have he2 := hperm.mem_iff.mp he
    obtain ⟨q, hq, hfq⟩ := List.mem_map.mp he2
    obtain ⟨j, m₀⟩ := q
    have hj : j = e.1 := by rw [← hfq]
    have hget : ordered.get? e.1 = some m₀ := by
      rw [← hj]
      have := List.mk_mem_enum_iff_getElem?.mp hq
      rw [List.get?_eq_getElem?]
      exact this
    exact eraseIdx_leftover hand ordered e.1 m₀ hget
      (hne m₀ (List.get?_mem hget)) hnodup hsub
  · by_cases hord : ordered.length = 0
    · rw [List.length_eq_zero.mp hord]
      simpa using hhand
    · have hlen2 : ¬(hand.filter (fun c =>
          !(ordered.flatten.any (fun mc => mc.id = c.id)))).length = 0 :=
        fun h => hcond ⟨h, hord⟩
      intro hnil
      exact hlen2 (by rw [hnil]; rfl)

/-- **C9** (AI discard safety): whenever the acting player's hand has at
least 4 cards (with distinct card identities, as every dealt hand has), the
melds selected by `planMeldAndDiscard` (steps 1–3.1) never consume the whole
hand: at least one hand card remains outside the proposed melds, so the
fallback that breaks a laid meld to find a discard is unreachable. -/
theorem C9_discard_safety (d : AIDifficulty) (s : GameState) (p : Nat)
    (h4 : 4 ≤ (s.playerHands.getD p []).length)
    (hnodup : ((s.playerHands.getD p []).map (·.id)).Nodup) :
    (s.playerHands.getD p []).filter (fun c =>
      !((AIPlayer.planMeldsToLay d s p).flatten.any (fun mc => mc.id = c.id))) ≠ [] := by
  rw [AIPlayer.planMeldsToLay]
  try dsimp only
  have hsubl := selectMeldsToLay_sublist d (s.playerHands.getD p [])
    (s.playersHaveOpened.getD p false)
    (AIPlayer.solveHandWithValidation s p (s.playerHands.getD p []))
  have hsol := (solveHandWithValidation_spec s p (s.playerHands.getD p [])).1
  have hsolne := (solveHandWithValidation_spec s p (s.playerHands.getD p [])).2
  have hflatsub := (sublist_flatten hsubl).map (·.id)
  have hordperm := (flatten_map_orderCards_perm
    (AIPlayer.selectMeldsToLay d (s.playerHands.getD p [])
      (s.playersHaveOpened.getD p false)
      (AIPlayer.solveHandWithValidation s p (s.playerHands.getD p [])))).map (·.id)
  apply ensureDiscardable_leftover
  · intro hnil
    rw [hnil] at h4
    simp at h4
  · intro m hm
    obtain ⟨m', hm', rfl⟩ := List.mem_map.mp hm
    have hne := hsolne m' (hsubl.subset hm')
    intro h0
    have hlen := (orderCardsInMeldAdvanced_perm m').length_eq
    rw [h0] at hlen
    simp only [List.length_nil] at hlen
    exact hne (List.length_eq_zero.mp hlen.symm)
  · rw [hordperm.nodup_iff]
    refine List.Nodup.sublist hflatsub ?_
    have hnall := hsol.nodup_iff.mpr hnodup
    exact List.Nodup.sublist (List.sublist_append_left _ _) hnall
  · intro x hx
    have hx1 := hordperm.mem_iff.mp hx
    have hx2 := hflatsub.subset hx1
    exact hsol.mem_iff.mp (List.mem_append_left _ hx2)

/-- Concrete state for the C9 witness: player 0 holds four junk cards that
form no meld, so the planner lays nothing and the whole hand stays free. -/
def c9State : GameState :=
  { drawPile := []
    discardPile := []
    playerHands := [[
      { suit := Suit.HEART, value := 2, faceUp := true, id := 0 },
      { suit := Suit.SPADE, value := 5, faceUp := true, id := 1 },
      { suit := Suit.DIAMOND, value := 9, faceUp := true, id := 2 },
      { suit := Suit.CLUB, value := 12, faceUp := true, id := 3 }]]
    playerMelds := [[]]
    playersHaveOpened := [false]
    currentPlayer := 0
    phase := GamePhase.DRAW
    numPlayers := 1 }

/-- Witness for C9 at a concrete state: the hypotheses hold and the leftover
filter is nonempty. -/
theorem C9_discard_safety_witness :
    (4 ≤ (c9State.playerHands.getD 0 []).length ∧
      ((c9State.playerHands.getD 0 []).map (·.id)).Nodup) ∧
    (c9State.playerHands.getD 0 []).filter (fun c =>
      !((AIPlayer.planMeldsToLay AIDifficulty.HARD c9State 0).flatten.any
        (fun mc => mc.id = c.id))) ≠ [] :=
  ⟨⟨by decide, by decide⟩,
    C9_discard_safety AIDifficulty.HARD c9State 0 (by decide) (by decide)⟩

set_option maxRecDepth 1000000 in
set_option maxHeartbeats 4000000 in
/-- **C1** (Card conservation — code bug): from a genuine `newGame` deal
(108 cards, each in exactly one location), a legal draw followed by a
`layDownMelds` call whose two individually valid melds share one physical
card is *accepted*; the shared K♥ is removed from the hand only once but
pushed to the table twice, so the total card count rises to 109 and the K♥
occupies two locations at once — the conservation invariant is broken. -/
theorem C1_conservation_code_bug :
    c1ShuffledDeck.Perm doubleDeckCards ∧
    ((allCards c1S0).map (·.id)).Nodup ∧
    (allCards c1S0).length = 108 ∧
    (Remi.drawCard c1S0 0).1 = true ∧
    (Remi.layDownMelds c1S1 0 c1Melds).1 = true ∧
    (allCards c1S2).length = 109 ∧
    ((allCards c1S2).filter (fun c => c.id = 12)).length = 2 := by
  refine ⟨by decide, by decide, by decide, by decide, by decide, by decide, by decide⟩

set_option maxRecDepth 10000000 in
set_option maxHeartbeats 10000000 in
/-- Full solver output on the counterexample hand (evaluated once). -/
theorem c6_solver_result :
    AIPlayer.solveHandWithValidation c6State 0 c6Hand =
      { melds :=
          [[mkCard Suit.HEART 9 1, mkCard Suit.DIAMOND 9 2, mkCard Suit.SPADE 9 3,
            mkCard Suit.CLUB 9 4],
           [mkCard Suit.CLUB 2 5, mkCard Suit.CLUB 3 6, mkCard Suit.CLUB 4 7,
            mkCard Suit.CLUB 5 8]]
        remainingCards := [mkCard Suit.JOKER_RED 14 9]
        totalScore := 50
        deadwoodValue := 0
        canGoOut := true } := by
  decide

/-- **C6 counterexample** (solver optimality fails): the hand `c6Hand` admits
the valid, disjoint two-meld partition `c6Set` + `c6Run` scoring 36 + 20 = 56
and using all nine cards; yet the solver returns the partition
{four 9s, 2-3-4-5 of clubs} scoring only 50 and leaves the joker unmelded —
its `isBetterSolution` ranking prefers any solution with exactly one card
left (`canGoOut`) over every higher-scoring one, and among those prefers the
zero-deadwood leftover joker.  (Whatever candidate order the source's float
comparator produces, every solution leaving exactly one card scores at most
54 here, so the 56-point optimum is never returned.) -/
theorem C6_solver_counterexample :
    Remi.isValidSet c6Set = true ∧
    Remi.isValidRun c6Run = true ∧
    (c6Set ++ c6Run).Perm c6Hand ∧
    Remi.calculateMeldValue c6Set + Remi.calculateMeldValue c6Run = 56 ∧
    (AIPlayer.solveHandWithValidation c6State 0 c6Hand).totalScore = 50 ∧
    (AIPlayer.solveHandWithValidation c6State 0 c6Hand).remainingCards =
      [mkCard Suit.JOKER_RED 14 9] :=
  ⟨by decide, by decide, by decide, by decide,
   by rw [c6_solver_result], by rw [c6_solver_result]⟩

/-- A 9-card hand with exactly one optimal partition — kings (30) plus
6-7-8 of clubs (21) — and three junk leftovers that admit no meld and no
8-card cover, so the go-out preference cannot interfere. -/
def c6GoodHand : List Card :=
  [mkCard Suit.HEART 13 1, mkCard Suit.DIAMOND 13 2, mkCard Suit.SPADE 13 3,
   mkCard Suit.CLUB 6 4, mkCard Suit.CLUB 7 5, mkCard Suit.CLUB 8 6,
   mkCard Suit.HEART 2 7, mkCard Suit.SPADE 3 8, mkCard Suit.DIAMOND 9 9]

/-- Engine state holding `c6GoodHand`. -/
def c6GoodState : GameState :=
  { drawPile := [], discardPile := [], playerHands := [c6GoodHand],
    playerMelds := [[]], playersHaveOpened := [false], currentPlayer := 0,
    phase := GamePhase.MELD, numPlayers := 1 }

set_option maxRecDepth 10000000 in
set_option maxHeartbeats 10000000 in
/-- **C6 amended**: on a 9-card hand whose unique optimal two-meld partition
leaves cards that form no meld and permit no 8-card cover, the solver does
return that partition, together with the leftover cards and their point
total (deadwood 2 + 3 + 9 = 14). -/
theorem C6_solver_amended :
    AIPlayer.solveHandWithValidation c6GoodState 0 c6GoodHand =
      { melds :=
          [[mkCard Suit.HEART 13 1, mkCard Suit.DIAMOND 13 2, mkCard Suit.SPADE 13 3],
           [mkCard Suit.CLUB 6 4, mkCard Suit.CLUB 7 5, mkCard Suit.CLUB 8 6]]
        remainingCards :=
          [mkCard Suit.HEART 2 7, mkCard Suit.SPADE 3 8, mkCard Suit.DIAMOND 9 9]
        totalScore := 51
        deadwoodValue := 14
        canGoOut := false } := by
  decide
